import Mathlib

/-!
Verification of the TuxOnIce / Suspend2 image-preparation and atomic-snapshot
engine (kernel/power/{prepare_image.c, pagedir.c, atomic_copy.c,
tuxonice_swap.c} and headers).

The development shallowly embeds the C code: C `int` arithmetic is `Int`
(with `Int.tdiv` for C's truncating division), page-frame bitmaps are
`Nat → Bool` predicates over PFNs `0 .. max_pfn`, page contents are
`Nat → Nat → Nat` (pfn → word index → word value), the accumulating result /
action / state flag words are lists of set bit indices, and external
collaborators (the storage allocator, the memory-reclamation and freezer
subsystems, `suspend_recalculate_image_contents`'s rescan of the machine)
are oracle functions supplied as parameters.
-/

/-! ## Constants from the source headers -/

/-- Bytes per page (4K pages, as assumed by prepare_image.c's MB conversion). -/
def PAGE_SIZE : Nat := 4096

/-- sizeof(unsigned long) on the modelled (64-bit) configuration. -/
def SIZEOF_UNSIGNED_LONG : Nat := 8

/-- BITS_PER_LONG for the modelled (64-bit) configuration. -/
def BITS_PER_LONG : Nat := 64

/-- Words copied per page by the explicit word loops: PAGE_SIZE / sizeof(unsigned long). -/
def WORDS_PER_PAGE : Nat := PAGE_SIZE / SIZEOF_UNSIGNED_LONG

/-- MAX_TRIES in prepare_image.c (bound on the eat-memory/update-image loop). -/
def MAX_TRIES : Int := 2

/-- MAX_NR_ZONES of the modelled configuration (zone indices 0..3). -/
def MAX_NR_ZONES : Nat := 4

/-- ZONE_HIGHMEM zone index of the modelled configuration. -/
def ZONE_HIGHMEM : Nat := 3

/-! Result-state bits, in the order of the result enum in
kernel/power/tuxonice.h (the SUSPEND_*/TOI_* names are the same enum). -/

def SUSPEND_ABORTED : Nat := 0
def SUSPEND_NOSTORAGE_AVAILABLE : Nat := 2
def SUSPEND_FREEZING_FAILED : Nat := 4
def SUSPEND_WOULD_EAT_MEMORY : Nat := 6
def SUSPEND_EXTRA_PAGES_ALLOW_TOO_SMALL : Nat := 10
def SUSPEND_UNABLE_TO_PREPARE_IMAGE : Nat := 11

/-! Action-state bits, in the order of the action enum in
kernel/power/tuxonice.h. -/

def SUSPEND_TEST_FILTER_SPEED : Nat := 9
def SUSPEND_TEST_BIO : Nat := 10

/-! Suspend-state bits, from the enum in include/linux/suspend.h. -/

def SUSPEND_RESUMED_BEFORE : Nat := 8
def SUSPEND_LOADING_ALT_IMAGE : Nat := 15

/-- C `int` division (truncation toward zero). -/
def cdiv (a b : Int) : Int := Int.tdiv a b

/-- The kernel's DIV_ROUND_UP(n, d) macro: ((n) + (d) - 1) / (d) in C `int`
arithmetic. -/
def div_round_up (n d : Int) : Int := cdiv (n + d - 1) d

/-- Flag words (toi_result / toi_action / toi_state) are modelled as the list
of bit indices that are set; `test_bit` is list membership.  `set_bit` conses
(re-setting an already-set bit changes nothing observable by membership). -/
abbrev FlagWord := List Nat

/-- test_bit on a flag word. -/
def test_flag (bit : Nat) (w : FlagWord) : Bool := w.contains bit

/-- The set_abort_result macro of kernel/power/tuxonice.h: sets the umbrella
SUSPEND_ABORTED bit and then the specific reason bit in toi_result. -/
def set_abort_result (toi_result : FlagWord) (bit : Nat) : FlagWord :=
  bit :: SUSPEND_ABORTED :: toi_result

/-! ## Pageframe bitmaps and the lockstep bitmap walk (atomic_copy.c)

`get_next_bit_on` lives in the dyn_pageflags library, which is not among the
source files.  Modelled from the spec: §4.1's `iterate-set(role)` lazy PFN
sequence together with the cursor convention documented at its call site in
pagedir.c (`= max_pfn + 1 when yet to find first … pfn that can be used,
= 0..max_pfn when going through list`): a call with a counter beyond max_pfn
starts from PFN 0, otherwise the search starts just after the counter, and
max_pfn + 1 is returned when no further bit is set. -/

/-- Ascending list of PFNs `s, s+1, …, max_pfn` whose bit is set in `map`. -/
def bits_from (map : Nat → Bool) (maxPfn s : Nat) : List Nat :=
  (List.range' s (maxPfn + 1 - s)).filter map

/-- Modelled from the spec: dyn_pageflags' get_next_bit_on (see section
comment).  Returns the first set PFN after `counter` (from 0 if `counter`
exceeds max_pfn), or max_pfn + 1 if none. -/
def get_next_bit_on (map : Nat → Bool) (maxPfn counter : Nat) : Nat :=
  (bits_from map maxPfn (if maxPfn < counter then 0 else counter + 1)).headD (maxPfn + 1)

/-- The inner word loop of suspend_copy_pageset1 (atomic_copy.c): with fuel
`l + 1` the loop writes word index `l` of the destination page from the
source page and continues downward; fuel 0 leaves the destination unchanged.
Called with fuel WORDS_PER_PAGE this is C's `loop = PAGE_SIZE/sizeof(unsigned
long) - 1; while (loop >= 0) { *(copyvirt+loop) = *(origvirt+loop); loop--; }`. -/
def copy_page_words (origvirt copyvirt : Nat → Nat) : Nat → Nat → Nat
  | 0 => copyvirt
  | l + 1 => fun w => if w = l then origvirt w else copy_page_words origvirt copyvirt l w

/-- The main loop of suspend_copy_pageset1: runs `n` iterations, each copying
the page at `source_index` onto the page at `dest_index` word by word and then
advancing both indices with get_next_bit_on.  Memory is pfn → word → value. -/
def copy_loop (pageset1_map pageset1_copy_map : Nat → Bool) (maxPfn : Nat) :
    Nat → Nat → Nat → (Nat → Nat → Nat) → (Nat → Nat → Nat)
  | 0, _, _, mem => mem
  | n + 1, source_index, dest_index, mem =>
    let mem' : Nat → Nat → Nat := fun pfn =>
      if pfn = dest_index then copy_page_words (mem source_index) (mem pfn) WORDS_PER_PAGE
      else mem pfn
    copy_loop pageset1_map pageset1_copy_map maxPfn n
      (get_next_bit_on pageset1_map maxPfn source_index)
      (get_next_bit_on pageset1_copy_map maxPfn dest_index) mem'

/-- suspend_copy_pageset1 (atomic_copy.c): the atomic copy of pageset1.  Both
cursors start at max_pfn + 1 (i.e. at the first set bit of each bitmap) and
the loop body runs pagedir1.size times. -/
def suspend_copy_pageset1 (pageset1_map pageset1_copy_map : Nat → Bool)
    (maxPfn pagedir1_size : Nat) (mem : Nat → Nat → Nat) : Nat → Nat → Nat :=
  copy_loop pageset1_map pageset1_copy_map maxPfn pagedir1_size
    (get_next_bit_on pageset1_map maxPfn (maxPfn + 1))
    (get_next_bit_on pageset1_copy_map maxPfn (maxPfn + 1)) mem

/-- Specification-level description of a sequence of page copies: each pair
(src, dst) overwrites the WORDS_PER_PAGE words of page dst with those of page
src in the current memory, in order. -/
def copyRun (mem : Nat → Nat → Nat) : List (Nat × Nat) → (Nat → Nat → Nat)
  | [] => mem
  | (s, d) :: rest =>
    copyRun (fun pfn w => if pfn = d ∧ w < WORDS_PER_PAGE then mem s w else mem pfn w) rest

/-- The list of cursor values consumed by `copy_loop`: the current index, then
`n - 1` further get_next_bit_on steps. -/
def stepList (map : Nat → Bool) (maxPfn : Nat) : Nat → Nat → List Nat
  | 0, _ => []
  | n + 1, i => i :: stepList map maxPfn n (get_next_bit_on map maxPfn i)

/-! ## __suspend_post_context_save (atomic_copy.c) -/

/-- Result of __suspend_post_context_save: C return value, the toi_result
flag word, and whether suspend_copy_pageset1 was invoked. -/
structure PostContextSaveOut where
  ret : Int
  toi_result : FlagWord
  copied_pageset1 : Bool
deriving DecidableEq

/-- __suspend_post_context_save (atomic_copy.c).  `old_ps1_size` is
pagedir1.size on entry; `new_ps1_size` is pagedir1.size after
suspend_recalculate_image_contents(1) re-measured the image (the checksum
calls and the rescan itself touch no state modelled here, so the re-measured
size enters as a parameter).  If pageset1 grew by more than
extra_pd1_pages_allowance the EXTRA_PAGES_ALLOW_TOO_SMALL abort is recorded
and -1 returned without copying; otherwise the atomic copy runs unless one of
the two test-mode action flags suppresses it. -/
def __suspend_post_context_save (old_ps1_size new_ps1_size extra_pd1_pages_allowance : Int)
    (toi_action toi_result : FlagWord) : PostContextSaveOut :=
  let extra_pd1_pages_used := new_ps1_size - old_ps1_size
  if extra_pd1_pages_used > extra_pd1_pages_allowance then
    { ret := -1
      toi_result := set_abort_result toi_result SUSPEND_EXTRA_PAGES_ALLOW_TOO_SMALL
      copied_pageset1 := false }
  else
    { ret := 0
      toi_result := toi_result
      copied_pageset1 :=
        !test_flag SUSPEND_TEST_FILTER_SPEED toi_action && !test_flag SUSPEND_TEST_BIO toi_action }

/-! ## Page-set partitioner: flag_image_pages (prepare_image.c)

A physical page is modelled by the per-page inputs the classification pass
reads: `pfn_valid` (pfn_valid(pfn)), `nosave_free` (PageNosaveFree after
generate_free_page_map, i.e. the page sits on a free list), `saveable`
(saveable_page / saveable_highmem_page returned non-NULL), `nosave`
(PageNosave), `pageset2` (PagePageset2, precomputed by
suspend_mark_pages_for_pageset2), `resave` (PageResave) and `highmem`
(PageHighMem).  A zone is the list of its page descriptors in PFN order; the
page space is the list of zones.  The pass also manipulates the pageset1 and
pageset1-copy bitmaps (SetPagePageset1, SetPagePageset1Copy,
ClearPagePageset1Copy); none of those bits are read back within the pass, so
they do not feed the counters modelled here. -/

structure PageDesc where
  pfn_valid : Bool
  nosave_free : Bool
  saveable : Bool
  nosave : Bool
  pageset2 : Bool
  resave : Bool
  highmem : Bool
deriving DecidableEq

/-- The counters flag_image_pages produces: pagedir1/pagedir2 sizes with
their highmem portions, num_nosave and num_free. -/
structure ImgCounts where
  pd1_size : Nat
  pd1_high : Nat
  pd2_size : Nat
  pd2_high : Nat
  num_nosave : Nat
  num_free : Nat
deriving DecidableEq

/-- The per-zone loop of flag_image_pages.  The second argument models the C
loop counter manipulation `loop += chunk_size - 1; continue;` after a free
region: a positive skip count consumes pages without classifying them.  At a
valid page that heads a free region (size_of_free_region > 0, i.e. the page is
PageNosaveFree) the whole run of consecutive PageNosaveFree pages is counted
as free and skipped; otherwise the page is classified as nosave, pageset2
(with resave pages additionally entering pageset1), or pageset1. -/
def flag_loop : List PageDesc → Nat → ImgCounts → ImgCounts
  | [], _, c => c
  | _ :: rest, skip + 1, c => flag_loop rest skip c
  | p :: rest, 0, c =>
    if !p.pfn_valid then flag_loop rest 0 c
    else if p.nosave_free then
      let chunk_size := 1 + (rest.takeWhile (fun q => q.nosave_free)).length
      flag_loop rest (chunk_size - 1) { c with num_free := c.num_free + chunk_size }
    else if !p.saveable || p.nosave then
      flag_loop rest 0 { c with num_nosave := c.num_nosave + 1 }
    else if p.pageset2 then
      let c2 := { c with pd2_size := c.pd2_size + 1
                         pd2_high := c.pd2_high + (if p.highmem then 1 else 0) }
      if p.resave then
        flag_loop rest 0 { c2 with pd1_size := c2.pd1_size + 1
                                   pd1_high := c2.pd1_high + (if p.highmem then 1 else 0) }
      else flag_loop rest 0 c2
    else
      flag_loop rest 0 { c with pd1_size := c.pd1_size + 1
                                pd1_high := c.pd1_high + (if p.highmem then 1 else 0) }

/-- flag_image_pages (prepare_image.c): zeroes the counters and classifies
every zone's pages in order.  (The bitmap clearing and
generate_free_page_map precede this in C; their outcome is the `nosave_free`
input field.) -/
def flag_image_pages (zones : List (List PageDesc)) : ImgCounts :=
  zones.foldl (fun c z => flag_loop z 0 c) ⟨0, 0, 0, 0, 0, 0⟩

/-- A page that reaches the classification branches: valid, not part of a
free region, saveable and not marked nosave. -/
def classified (p : PageDesc) : Bool :=
  p.pfn_valid && !p.nosave_free && p.saveable && !p.nosave

/-- Pages counted into pagedir2. -/
def counted_ps2 (p : PageDesc) : Bool := classified p && p.pageset2

/-- Pages counted into pagedir1: ordinary pageset1 pages plus resave-flagged
pageset2 pages. -/
def counted_ps1 (p : PageDesc) : Bool := classified p && (!p.pageset2 || p.resave)

/-- Pages counted as nosave. -/
def counted_nosave (p : PageDesc) : Bool :=
  p.pfn_valid && !p.nosave_free && (!p.saveable || p.nosave)

/-- Pages counted in both pagedir1 and pagedir2 (the resave double-count). -/
def double_counted (p : PageDesc) : Bool := classified p && p.pageset2 && p.resave

/-- The single-page input refuting the exactly-one partition claim: a valid,
saveable, pageset2-eligible page flagged resave. -/
def resave_page : PageDesc :=
  { pfn_valid := true, nosave_free := false, saveable := true, nosave := false
    pageset2 := true, resave := true, highmem := false }

/-- The §8 end-to-end scenario: one zone of 1000 valid non-free pages — 50
nosave, 290 pageset2-only, 10 pageset2 + resave, 650 ordinary pageset1. -/
def scenario_zones : List (List PageDesc) :=
  [List.replicate 50
      { pfn_valid := true, nosave_free := false, saveable := true, nosave := true
        pageset2 := false, resave := false, highmem := false } ++
   List.replicate 290
      { pfn_valid := true, nosave_free := false, saveable := true, nosave := false
        pageset2 := true, resave := false, highmem := false } ++
   List.replicate 10 resave_page ++
   List.replicate 650
      { pfn_valid := true, nosave_free := false, saveable := true, nosave := false
        pageset2 := false, resave := false, highmem := false }]

/-- A small concrete page space (one zone: a free page, a nosave page, a
pageset2 page, a resave page, an ordinary pageset1 page) used to instantiate
theorems about the classification pass. -/
def witness_zones : List (List PageDesc) :=
  [[{ pfn_valid := true, nosave_free := true, saveable := true, nosave := false
      pageset2 := false, resave := false, highmem := false },
    { pfn_valid := true, nosave_free := false, saveable := false, nosave := false
      pageset2 := false, resave := false, highmem := false },
    { pfn_valid := true, nosave_free := false, saveable := true, nosave := false
      pageset2 := true, resave := false, highmem := false },
    resave_page,
    { pfn_valid := true, nosave_free := false, saveable := true, nosave := false
      pageset2 := false, resave := false, highmem := false }]]

/-- Closed-form counting: what one classification pass adds to the counters
for a page list — pagedir1/pagedir2 sizes with their highmem parts, nosave
and free counts, expressed with List.countP over the per-page predicates. -/
def zone_add (c : ImgCounts) (l : List PageDesc) : ImgCounts :=
  { pd1_size := c.pd1_size + l.countP counted_ps1
    pd1_high := c.pd1_high + l.countP (fun p => counted_ps1 p && p.highmem)
    pd2_size := c.pd2_size + l.countP counted_ps2
    pd2_high := c.pd2_high + l.countP (fun p => counted_ps2 p && p.highmem)
    num_nosave := c.num_nosave + l.countP counted_nosave
    num_free := c.num_free + l.countP (fun p => p.nosave_free) }

/-! ## Resource negotiator scalars (prepare_image.c)

The negotiator's scalar inputs in one record: the pagedir aggregates
(`struct pagedir` per §3 of the design holds a total size and a highmem
count; get_highmem_size / get_lowmem_size / inc_highmem_size come from
headers outside the source set — modelled from the spec: lowmem size is the
total minus the highmem count), the storage counters, the allowance and
configuration scalars, and the external measurement oracles' current values
(header byte need, module memory need, free-page counts). -/

structure PrepState where
  ps1_size : Int
  ps1_high : Int
  ps2_size : Int
  ps2_high : Int
  header_space_allocated : Int
  main_storage_allocated : Int
  storage_available : Int
  extra_pd1_pages_allowance : Int
  extra_pages_allocated : Int
  image_size_limit : Int
  expected_compression_ratio : Int
  header_bytes : Int
  min_free_ram : Int
  memory_for_modules : Int
  free_low_pages : Int
  free_high_pages : Int
deriving DecidableEq

/-- get_highmem_size(pagedir1). -/
def get_highmem_size_pd1 (s : PrepState) : Int := s.ps1_high

/-- get_highmem_size(pagedir2). -/
def get_highmem_size_pd2 (s : PrepState) : Int := s.ps2_high

/-- Modelled from the spec (§3 Page Directory): get_lowmem_size(pagedir1) =
total size minus highmem count. -/
def get_lowmem_size_pd1 (s : PrepState) : Int := s.ps1_size - s.ps1_high

/-- Modelled from the spec (§3 Page Directory): get_lowmem_size(pagedir2). -/
def get_lowmem_size_pd2 (s : PrepState) : Int := s.ps2_size - s.ps2_high

/-- main_storage_needed(use_ecr, ignore_extra_pd1_allow) from prepare_image.c:
(ps1 + ps2 + allowance?) * (expected compression ratio or 100) / 100. -/
def main_storage_needed (s : PrepState) (use_ecr ignore_extra_pd1_allow : Bool) : Int :=
  cdiv ((s.ps1_size + s.ps2_size +
          (if ignore_extra_pd1_allow then 0 else s.extra_pd1_pages_allowance)) *
        (if use_ecr then s.expected_compression_ratio else 100)) 100

/-- header_storage_needed() from prepare_image.c: the byte total (struct
size + module header storage + pageflags space, carried as `header_bytes`)
rounded up to pages. -/
def header_storage_needed (s : PrepState) : Int :=
  div_round_up s.header_bytes (PAGE_SIZE : Nat)

/-- highpages_ps1_to_free() from prepare_image.c. -/
def highpages_ps1_to_free (s : PrepState) : Int :=
  max 0 (div_round_up (get_highmem_size_pd1 s - get_highmem_size_pd2 s) 2 - s.free_high_pages)

/-- lowpages_ps1_to_free() from prepare_image.c. -/
def lowpages_ps1_to_free (s : PrepState) : Int :=
  max 0 (div_round_up
    (get_lowmem_size_pd1 s + s.extra_pd1_pages_allowance + s.min_free_ram +
      s.memory_for_modules - get_lowmem_size_pd2 s - s.free_low_pages -
      s.extra_pages_allocated) 2)

/-- current_image_size() from prepare_image.c. -/
def current_image_size (s : PrepState) : Int :=
  s.ps1_size + s.ps2_size + s.header_space_allocated

/-- any_to_free(use_image_size_limit) from prepare_image.c.  The user limit is
in MB and is converted by `image_size_limit << 8` (4K pages). -/
def any_to_free (s : PrepState) (use_image_size_limit : Bool) : Int :=
  let user_limit : Int :=
    if use_image_size_limit ∧ s.image_size_limit > 0 then
      max 0 (current_image_size s - s.image_size_limit * 256)
    else 0
  let storage_limit : Int :=
    max 0 (main_storage_needed s true true - s.storage_available)
  max user_limit storage_limit

/-- amount_needed(use_image_size_limit) from prepare_image.c. -/
def amount_needed (s : PrepState) (use_image_size_limit : Bool) : Int :=
  max (highpages_ps1_to_free s + lowpages_ps1_to_free s) (any_to_free s use_image_size_limit)

/-- image_not_ready(use_image_size_limit) from prepare_image.c: true when
amount_needed is positive, or the header space allocated is below what the
header needs, or the main storage allocated is below
main_storage_needed(1, 1). -/
def image_not_ready (s : PrepState) (use_image_size_limit : Bool) : Bool :=
  decide (amount_needed s use_image_size_limit > 0) ||
  decide (s.header_space_allocated < header_storage_needed s) ||
  decide (s.main_storage_allocated < main_storage_needed s true true)

/-! Specification-side formulas (§4.3 step 3 of the design document),
transcribed from the spec's words for comparison with the code above.
`spec_ceil_half x` is ⌈x / 2⌉ on integers, written via ⌈y⌉ = -⌊-y⌋. -/

/-- ⌈x / 2⌉ for integers (spec side). -/
def spec_ceil_half (x : Int) : Int := -((-x).fdiv 2)

/-- Spec: highpages_to_free = max(0, ceil((high(ps1) − high(ps2)) / 2) −
free-high-pages). -/
def spec_highpages_to_free (s : PrepState) : Int :=
  max 0 (spec_ceil_half (s.ps1_high - s.ps2_high) - s.free_high_pages)

/-- Spec: lowpages_to_free = max(0, ceil((low(ps1) + allowance +
min-free-reserve + module-memory-needed − low(ps2) − free-low-pages −
extra-pages-already-allocated) / 2)). -/
def spec_lowpages_to_free (s : PrepState) : Int :=
  max 0 (spec_ceil_half ((s.ps1_size - s.ps1_high) + s.extra_pd1_pages_allowance +
    s.min_free_ram + s.memory_for_modules - (s.ps2_size - s.ps2_high) -
    s.free_low_pages - s.extra_pages_allocated))

/-- Spec: storage-shortfall = max(0, projected storage need − storage
available), the projected need taken with the expected compression ratio and
without the extra-pages allowance. -/
def spec_storage_shortfall (s : PrepState) : Int :=
  max 0 (main_storage_needed s true true - s.storage_available)

/-- Spec: user-limit-shortfall = max(0, current image size − cap·256) when a
positive cap (in MB) is set and being used, else 0. -/
def spec_user_limit_shortfall (s : PrepState) (use_limit : Bool) : Int :=
  if use_limit ∧ s.image_size_limit > 0 then
    max 0 (current_image_size s - s.image_size_limit * 256)
  else 0

/-- Spec: amount-needed = max(highpages_to_free + lowpages_to_free,
max(storage-shortfall, user-limit-shortfall)). -/
def spec_amount_needed (s : PrepState) (use_limit : Bool) : Int :=
  max (spec_highpages_to_free s + spec_lowpages_to_free s)
    (max (spec_storage_shortfall s) (spec_user_limit_shortfall s use_limit))

/-! ## suspend_prepare_image driver (prepare_image.c)

The retry loop.  eat_memory and update_image mutate much state through
external collaborators (reclamation, the storage allocator, the freezer), so
the driver takes their compound effect as oracle functions on the combined
state; every theorem about the driver therefore holds for all possible
behaviours of those two phases.  (A concrete embedding of eat_memory's own
control flow follows separately below.) -/

/-- Negotiator state together with the toi_result flag word. -/
structure SysState where
  meas : PrepState
  toi_result : FlagWord
deriving DecidableEq

/-- test_result_state(SUSPEND_ABORTED). -/
def aborted (s : SysState) : Bool := test_flag SUSPEND_ABORTED s.toi_result

/-- The external world of one suspend_prepare_image run: the initial state,
whether freeze_processes fails (attempt_to_freeze / the loop re-freeze), the
value get_extra_pd1_allowance would install, the storage_available probe, and
the oracle effects of eat_memory and update_image. -/
structure PrepWorld where
  init : SysState
  freeze_fails : Bool
  allowance_probe : Int
  storage_avail_probe : Int
  eat : SysState → SysState
  upd : SysState → SysState

/-- The do/while loop of suspend_prepare_image.  Returns the state after the
loop together with the number of eat_memory and of update_image executions.
`tries` starts at 1; the loop repeats while image_not_ready(1) and
tries <= MAX_TRIES (checked after the increment) and not aborted; an abort
detected right after eat_memory breaks before update_image.  The fuel only
bounds the recursion and never expires when fuel ≥ 3 - tries. -/
def prep_loop (eat upd : SysState → SysState) : Nat → Int → SysState → SysState × Nat × Nat
  | 0, _, s => (s, 0, 0)
  | fuel + 1, tries, s =>
    let s1 := eat s
    if aborted s1 then (s1, 1, 0)
    else
      let s2 := upd s1
      let tries2 := tries + 1
      if image_not_ready s2.meas true && decide (tries2 ≤ MAX_TRIES) && !aborted s2 then
        let r := prep_loop eat upd fuel tries2 s2
        (r.1, r.2.1 + 1, r.2.2 + 1)
      else (s2, 1, 1)

/-- Outcome of suspend_prepare_image: the C return value, the state right
after the loop (before the reporting block), the final state, call counts,
and whether unlink_lru_lists / display_stats ran. -/
structure PrepOutcome where
  result : Int
  post_loop : SysState
  final : SysState
  eat_calls : Nat
  update_calls : Nat
  unlinked_lru : Bool
  displayed_stats : Bool

/-- The retry loop of suspend_prepare_image together with the code after it:
runs the do/while loop from tries = 1, computes the C result as
image_not_ready(0) on the post-loop state and, when not aborted, either
records the UNABLE_TO_PREPARE_IMAGE abort with diagnostic statistics (still
not ready) or unlinks the LRU lists (ready). -/
def prep_finish (w : PrepWorld) (s2 : SysState) : PrepOutcome :=
  let r := prep_loop w.eat w.upd 3 1 s2
  let s3 := r.1
  let result : Int := if image_not_ready s3.meas false then 1 else 0
  if !aborted s3 then
    if image_not_ready s3.meas false then
      { result := result, post_loop := s3,
        final := { s3 with toi_result := set_abort_result s3.toi_result
                             SUSPEND_UNABLE_TO_PREPARE_IMAGE },
        eat_calls := r.2.1, update_calls := r.2.2,
        unlinked_lru := false, displayed_stats := true }
    else
      { result := result, post_loop := s3, final := s3,
        eat_calls := r.2.1, update_calls := r.2.2,
        unlinked_lru := true, displayed_stats := false }
  else
    { result := result, post_loop := s3, final := s3,
      eat_calls := r.2.1, update_calls := r.2.2,
      unlinked_lru := false, displayed_stats := false }

/-- suspend_prepare_image (prepare_image.c).  Zeroes the storage counters;
aborts on freeze failure; installs the probed driver allowance when the
configured allowance is zero; reads storage_available and aborts when it is
zero; runs the eat_memory/update_image loop; computes the result as
image_not_ready(0); and, when not aborted, either reports
UNABLE_TO_PREPARE_IMAGE with diagnostic statistics (result nonzero) or
unlinks the LRU lists (result zero). -/
def suspend_prepare_image (w : PrepWorld) : PrepOutcome :=
  let s0 : SysState :=
    { w.init with meas := { w.init.meas with header_space_allocated := 0,
                                             main_storage_allocated := 0 } }
  if w.freeze_fails then
    let sa := { s0 with toi_result := set_abort_result s0.toi_result SUSPEND_FREEZING_FAILED }
    { result := 1, post_loop := sa, final := sa, eat_calls := 0, update_calls := 0,
      unlinked_lru := false, displayed_stats := false }
  else
    let s1 := if s0.meas.extra_pd1_pages_allowance = 0 then
        { s0 with meas := { s0.meas with extra_pd1_pages_allowance := w.allowance_probe } }
      else s0
    let s2 := { s1 with meas := { s1.meas with storage_available := w.storage_avail_probe } }
    if s2.meas.storage_available = 0 then
      let sa := { s2 with toi_result := set_abort_result s2.toi_result SUSPEND_NOSTORAGE_AVAILABLE }
      { result := 1, post_loop := sa, final := sa, eat_calls := 0, update_calls := 0,
        unlinked_lru := false, displayed_stats := false }
    else prep_finish w s2

/-- Concrete negotiator state exercising the user image-size cap: pageset1 =
1000 pages, a 1 MB (256-page) cap, ample free memory and storage. -/
def c5_state : PrepState :=
  { ps1_size := 1000, ps1_high := 0, ps2_size := 0, ps2_high := 0,
    header_space_allocated := 0, main_storage_allocated := 0, storage_available := 0,
    extra_pd1_pages_allowance := 5, extra_pages_allocated := 0, image_size_limit := 1,
    expected_compression_ratio := 100, header_bytes := 0, min_free_ram := 0,
    memory_for_modules := 0, free_low_pages := 5000, free_high_pages := 0 }

/-- Concrete world for the driver: freezing succeeds, 2000 pages of storage,
eat_memory reclaims nothing (a legal best-effort outcome) and update_image
allocates the full 2000 pages of storage. -/
def c5_world : PrepWorld :=
  { init := { meas := c5_state, toi_result := [] }, freeze_fails := false,
    allowance_probe := 0, storage_avail_probe := 2000,
    eat := fun s => s,
    upd := fun s => { s with meas := { s.meas with main_storage_allocated := 2000 } } }

/-! ## eat_memory (prepare_image.c)

Embedding of eat_memory's control flow.  suspend_recalculate_image_contents(0)
(a re-measurement of the machine plus a storage_available refresh),
shrink_one_zone and the zone layout are external, and enter as oracles; the
event list records every recalculation, drop_pagecache and shrink_one_zone
call so theorems can speak about which reclamation work ran. -/

inductive EatEv
  | recalcEv
  | dropPagecacheEv
  | shrinkEv (zone_pos : Nat)
deriving DecidableEq

/-- External collaborators of eat_memory: the recalculation oracle, the
per-zone reclamation oracle (zone position in for_each_zone order, target),
the zone_idx() value of each zone in for_each_zone order, and whether the
final freeze_processes call fails. -/
structure EatWorld where
  recalc : PrepState → PrepState
  shrink : Nat → Int → PrepState → PrepState
  zone_idxs : List Nat
  freeze_fails : Bool

/-- The zone_type_free computation in eat_memory's reclamation loop:
max of the class-specific ps1-to-free figure (high for ZONE_HIGHMEM, low
otherwise) and amount_wanted. -/
def zone_type_free_calc (s : PrepState) (zone_idx : Nat) (amount_wanted : Int) : Int :=
  max (if zone_idx = ZONE_HIGHMEM then highpages_ps1_to_free s else lowpages_ps1_to_free s)
    amount_wanted

/-- The inner for_each_zone loop for one zone_idx: zones of other indices are
skipped; each matching zone is shrunk toward zone_type_free, the image is
re-measured, amount_wanted and zone_type_free are recomputed, and the loop
breaks early when zone_type_free goes negative. -/
def eat_inner (w : EatWorld) (zone_idx : Nat) :
    List (Nat × Nat) → Int → Int → PrepState → Bool → List EatEv →
    PrepState × Int × Bool × List EatEv
  | [], amount_wanted, _, s, did, evs => (s, amount_wanted, did, evs)
  | (pos, zi) :: rest, amount_wanted, ztf, s, did, evs =>
    if zi ≠ zone_idx then eat_inner w zone_idx rest amount_wanted ztf s did evs
    else
      let s2 := w.recalc (w.shrink pos ztf s)
      let evs2 := evs ++ [EatEv.shrinkEv pos, EatEv.recalcEv]
      let amount2 := amount_needed s2 true
      let ztf2 := zone_type_free_calc s2 zone_idx amount2
      if ztf2 < 0 then (s2, amount2, true, evs2)
      else eat_inner w zone_idx rest amount2 ztf2 s2 true evs2

/-- The outer loop over zone_idx = 0 .. MAX_NR_ZONES-1, breaking when the
initial zone_type_free for a class is negative. -/
def eat_outer (w : EatWorld) :
    List Nat → Int → PrepState → Bool → List EatEv → PrepState × Int × Bool × List EatEv
  | [], amount_wanted, s, did, evs => (s, amount_wanted, did, evs)
  | zone_idx :: rest, amount_wanted, s, did, evs =>
    let ztf := zone_type_free_calc s zone_idx amount_wanted
    if ztf < 0 then (s, amount_wanted, did, evs)
    else
      let r := eat_inner w zone_idx w.zone_idxs.enum amount_wanted ztf s did evs
      eat_outer w rest r.2.1 r.1 r.2.2.1 r.2.2.2

/-- eat_memory (prepare_image.c).  Recalculates, computes amount_needed(1);
under the image_size_limit = -1 policy a positive amount aborts with
WOULD_EAT_MEMORY before any reclamation; limit = -2 performs a single
drop_pagecache pass plus re-measurement; otherwise general reclamation runs
over the zones when an amount is still wanted and nothing aborted, followed
by a re-freeze that may flag FREEZING_FAILED; a final recalculation runs when
any memory was eaten. -/
def eat_memory (w : EatWorld) (sys : SysState) : SysState × List EatEv :=
  let s0 := w.recalc sys.meas
  let evs0 : List EatEv := [EatEv.recalcEv]
  let amount0 := amount_needed s0 true
  let limit := s0.image_size_limit
  if limit = -1 ∧ amount0 > 0 then
    ({ meas := s0, toi_result := set_abort_result sys.toi_result SUSPEND_WOULD_EAT_MEMORY }, evs0)
  else
    let step1 : PrepState × Int × Bool × List EatEv :=
      if limit = -2 then
        let s1 := w.recalc s0
        (s1, amount_needed s1 true, true, evs0 ++ [EatEv.dropPagecacheEv, EatEv.recalcEv])
      else (s0, amount0, false, evs0)
    let step2 : PrepState × Bool × List EatEv × FlagWord :=
      if step1.2.1 > 0 ∧ test_flag SUSPEND_ABORTED sys.toi_result = false ∧ limit ≠ -1 then
        let r := eat_outer w (List.range MAX_NR_ZONES) step1.2.1 step1.1 step1.2.2.1 step1.2.2.2
        let tr := if w.freeze_fails then set_abort_result sys.toi_result SUSPEND_FREEZING_FAILED
          else sys.toi_result
        (r.1, r.2.2.1, r.2.2.2, tr)
      else (step1.1, step1.2.2.1, step1.2.2.2, sys.toi_result)
    let step3 : PrepState × List EatEv :=
      if step2.2.1 then (w.recalc step2.1, step2.2.2.1 ++ [EatEv.recalcEv])
      else (step2.1, step2.2.2.1)
    ({ meas := step3.1, toi_result := step2.2.2.2 }, step3.2)

/-- Concrete state for the "don't eat any memory" policy: like `c5_state` but
with image_size_limit = -1 and a 1000-page storage shortfall. -/
def c8_state : PrepState := { c5_state with image_size_limit := -1 }

/-- Concrete eat_memory world: recalculation and reclamation change nothing,
two zones (indices 0 and 3), freezing succeeds. -/
def c8_world : EatWorld :=
  { recalc := fun s => s, shrink := fun _ _ s => s, zone_idxs := [0, 3],
    freeze_fails := false }

/-! ## Non-conflicting page allocator (pagedir.c) -/

/-- External inputs of ___suspend_get_nonconflicting_page: max_pfn, the
SUSPEND_LOADING_ALT_IMAGE state, whether pageset2_map is allocated, the
pageset2 bitmap, PagePageset1 and PageHighMem per PFN. -/
structure NCWorld where
  max_pfn : Nat
  loading_alt : Bool
  pageset2_map_present : Bool
  pageset2_map : Nat → Bool
  pageset1 : Nat → Bool
  highmem : Nat → Bool

/-- Mutable state of the allocator: the ps2_pfn cursor, the private
conflicting-pages list (first_conflicting_page, each page linked through its
own contents in C, a plain list here), and the stream of pages the kernel
allocator will hand out (`none` = allocation failure; an exhausted stream
also models failure). -/
structure NCState where
  ps2_pfn : Nat
  first_conflicting_page : List Nat
  allocs : List (Option Nat)
deriving DecidableEq

/-- The recycling do/while loop of ___suspend_get_nonconflicting_page:
advances ps2_pfn with get_next_bit_on; a PFN within range is returned if it
is not a pageset1 page and highmem only when allowed, otherwise the scan
continues while ps2_pfn < max_pfn; past the range the cursor is bumped to
max_pfn + 2.  The fuel (max_pfn + 3 at the call site) only bounds recursion:
the cursor strictly increases once below max_pfn + 1, so the fuel never
expires; on expiry the loop falls through to fresh allocation exactly like a
normal exit. -/
def nc_recycle (w : NCWorld) (can_be_highmem : Bool) : Nat → Nat → Option Nat × Nat
  | 0, cur => (none, cur)
  | fuel + 1, cur =>
    let cur1 := get_next_bit_on w.pageset2_map w.max_pfn cur
    if cur1 ≤ w.max_pfn then
      if !w.pageset1 cur1 && (can_be_highmem || !w.highmem cur1) then (some cur1, cur1)
      else if cur1 < w.max_pfn then nc_recycle w can_be_highmem fuel cur1
      else (none, cur1)
    else
      let cur2 := cur1 + 1
      if cur2 < w.max_pfn then nc_recycle w can_be_highmem fuel cur2
      else (none, cur2)

/-- The fresh-allocation do/while loop: alloc_pages failure returns NULL
overall; a freshly allocated page that is a pageset1 page is chained onto the
conflicting-pages list (not freed) and the loop tries again. -/
def alloc_loop (w : NCWorld) (can_be_highmem : Bool) :
    List (Option Nat) → List Nat → Option Nat × List (Option Nat) × List Nat
  | [], conflicting => (none, [], conflicting)
  | none :: rest, conflicting => (none, rest, conflicting)
  | some p :: rest, conflicting =>
    if w.pageset1 p then alloc_loop w can_be_highmem rest (p :: conflicting)
    else (some p, rest, conflicting)

/-- ___suspend_get_nonconflicting_page (pagedir.c): recycle a pageset2 page
via the monotone ps2_pfn cursor when loading an alternate image, else (or on
scan exhaustion) fall back to fresh allocation. -/
def ___suspend_get_nonconflicting_page (w : NCWorld) (can_be_highmem : Bool) (st : NCState) :
    Option Nat × NCState :=
  let afterRecycle : Option Nat × Nat :=
    if w.loading_alt && w.pageset2_map_present && decide (st.ps2_pfn < w.max_pfn + 2) then
      nc_recycle w can_be_highmem (w.max_pfn + 3) st.ps2_pfn
    else (none, st.ps2_pfn)
  match afterRecycle with
  | (some p, cur) => (some p, { st with ps2_pfn := cur })
  | (none, cur) =>
    let r := alloc_loop w can_be_highmem st.allocs st.first_conflicting_page
    (r.1, { st with ps2_pfn := cur, allocs := r.2.1, first_conflicting_page := r.2.2 })

/-- free_conflicting_pages (pagedir.c): walks the private list freeing every
page; returns the emptied state and the list of freed pages. -/
def free_conflicting_pages (st : NCState) : NCState × List Nat :=
  ({ st with first_conflicting_page := [] }, st.first_conflicting_page)

/-! ## Swap-signature serialization (tuxonice_swap.c)

The on-disk swap-header signature, 10 bytes at a fixed offset, with the
header device number and header block punned into it byte-wise.  The buffer
is a byte store `Nat → Nat` (the source writes an unsigned long at offset 6,
bytes 6..13 on the modelled 64-bit, little-endian configuration; the parse
side reads back a u32, bytes 6..9).  clear_bit removes a bit from a flag
word; set_bit adds it. -/

/-- clear_bit on a flag word. -/
def clear_flag (bit : Nat) (w : FlagWord) : FlagWord := w.filter (fun b => b ≠ bit)

/-- set_bit on a flag word. -/
def set_flag (bit : Nat) (w : FlagWord) : FlagWord := bit :: w

/-- Little-endian read of `n` bytes at `off`. -/
def readLE (buf : Nat → Nat) (off n : Nat) : Nat :=
  ((List.range n).map (fun i => buf (off + i) * 256 ^ i)).sum

/-- Write one byte. -/
def writeByte (buf : Nat → Nat) (off v : Nat) : Nat → Nat :=
  fun j => if j = off then v else buf j

/-- Little-endian write of the low `n` bytes of `v` at `off`. -/
def writeLE (buf : Nat → Nat) (off n v : Nat) : Nat → Nat :=
  fun j => if off ≤ j ∧ j < off + n then v / 256 ^ (j - off) % 256 else buf j

def sig_SWAP_SPACE : List Nat := [83, 87, 65, 80, 45, 83, 80, 65, 67, 69]
def sig_SWAPSPACE2 : List Nat := [83, 87, 65, 80, 83, 80, 65, 67, 69, 50]
def sig_S1SUSP : List Nat := [83, 49, 83, 85, 83, 80]
def sig_S2SUSP : List Nat := [83, 50, 83, 85, 83, 80]
def sig_S1SUSPEND : List Nat := [83, 49, 83, 85, 83, 80, 69, 78, 68]

/-- memcmp(lit, header, lit.length) == 0: the first lit.length bytes of the
buffer equal the literal. -/
def memcmp_eq (lit : List Nat) (buf : Nat → Nat) : Bool :=
  decide (∀ i, i < lit.length → buf i = lit.getD i 0)

/-- The state parse_signature mutates: header_dev_t, headerblock and the
toi_state flag word (TOI_RESUMED_BEFORE). -/
structure SigState where
  header_dev_t : Nat
  headerblock : Nat
  toi_state : FlagWord
deriving DecidableEq

/-- parse_signature (tuxonice_swap.c).  Returns 0/1 for the plain swap
signatures; recognizes the swsusp signatures as 2..4 and the TuxOnIce
signatures 'z'/'Z' as 12/13.  For types above 11, reads header_dev_t from
bytes 1..4, the resumed-before bit from bit 7 of byte 5, and headerblock from
bytes 6..9 (a u32 read).  With `restore` set, types above 5 have the original
swap signature text written back according to the type's low bit. -/
def parse_signature (header : Nat → Nat) (restore : Bool) (st : SigState) :
    Int × (Nat → Nat) × SigState :=
  if memcmp_eq sig_SWAP_SPACE header then (0, header, st)
  else if memcmp_eq sig_SWAPSPACE2 header then (1, header, st)
  else
    let type : Int :=
      if memcmp_eq sig_S1SUSP header then 2
      else if memcmp_eq sig_S2SUSP header then 3
      else if memcmp_eq sig_S1SUSPEND header then 4
      else if memcmp_eq [122] header then 12
      else if memcmp_eq [90] header then 13
      else -1
    let st1 :=
      if type > 11 then
        let cleared := clear_flag SUSPEND_RESUMED_BEFORE st.toi_state
        { header_dev_t := readLE header 1 4
          headerblock := readLE header 6 4
          toi_state :=
            if (header 5).testBit 7 then set_flag SUSPEND_RESUMED_BEFORE cleared else cleared }
      else st
    let header1 :=
      if restore ∧ type > 5 then
        (if type.emod 2 = 1 then fun j => if j < 10 then sig_SWAPSPACE2.getD j 0 else header j
         else fun j => if j < 10 then sig_SWAP_SPACE.getD j 0 else header j)
      else header
    (type, header1, st1)

/-- C's ffs(): 1-based index of the least significant set bit, 0 for 0. -/
def ffs (n : Nat) : Nat :=
  match (List.range BITS_PER_LONG).find? (fun i => n.testBit i) with
  | some i => i + 1
  | none => 0

/-- prepare_signature (tuxonice_swap.c).  Parses the current signature; swsusp
signatures (types 2..5) are refused, as is a header block needing 33+ bits on
a 64-bit build (the source tests `ffs(block) > 31`); otherwise byte 0 becomes
'Z' or 'z' according to the parsed type's low bit, the device number is
written at bytes 1..4 and the block number as an unsigned long at bytes 6
onward. -/
def prepare_signature (bdev block : Nat) (current_header : Nat → Nat) (st : SigState) :
    Int × (Nat → Nat) × SigState :=
  let r := parse_signature current_header false st
  let current_type := r.1
  let header := r.2.1
  let st1 := r.2.2
  if current_type > 1 ∧ current_type < 6 then (1, header, st1)
  else if BITS_PER_LONG = 64 ∧ ffs block > 31 then (1, header, st1)
  else
    let h1 := writeByte header 0 (if current_type.emod 2 = 1 then 90 else 122)
    let h2 := writeLE h1 1 4 bdev
    let h3 := writeLE h2 6 SIZEOF_UNSIGNED_LONG block
    (0, h3, st1)

/-! ## Theorems -/

theorem copy_page_words_eq (orig cop : Nat → Nat) :
    ∀ n w, copy_page_words orig cop n w = if w < n then orig w else cop w := by
  intro n
  induction n with
  | zero => intro w; simp [copy_page_words]
  | succ l ih =>
    intro w
    simp only [copy_page_words]
    by_cases h : w = l
    · subst h; simp
    · rw [if_neg h, ih]
      by_cases h2 : w < l
      · rw [if_pos h2, if_pos (by omega)]
      · rw [if_neg h2, if_neg (by omega)]

theorem bits_from_unfold (map : Nat → Bool) (maxPfn s : Nat) :
    bits_from map maxPfn s =
      if s ≤ maxPfn then
        (if map s then s :: bits_from map maxPfn (s + 1) else bits_from map maxPfn (s + 1))
      else [] := by
  unfold bits_from
  by_cases h : s ≤ maxPfn
  · rw [if_pos h]
    have h1 : maxPfn + 1 - s = (maxPfn - s) + 1 := by omega
    have h2 : maxPfn + 1 - (s + 1) = maxPfn - s := by omega
    rw [h1, List.range'_succ, h2, List.filter_cons]
  · have h0 : maxPfn + 1 - s = 0 := by omega
    simp [h0, h]

theorem bits_from_head (map : Nat → Bool) (maxPfn : Nat) :
    ∀ k s b rest, maxPfn + 1 - s ≤ k →
      bits_from map maxPfn s = b :: rest →
      b ≤ maxPfn ∧ map b = true ∧ rest = bits_from map maxPfn (b + 1) := by
  intro k
  induction k with
  | zero =>
    intro s b rest hk h
    rw [bits_from_unfold, if_neg (by omega)] at h
    exact absurd h (by simp)
  | succ k ih =>
    intro s b rest hk h
    rw [bits_from_unfold] at h
    by_cases hs : s ≤ maxPfn
    · rw [if_pos hs] at h
      by_cases hm : map s
      · rw [if_pos hm, List.cons.injEq] at h
        obtain ⟨hb, hr⟩ := h
        subst hb
        exact ⟨hs, hm, hr.symm⟩
      · rw [if_neg hm] at h
        exact ih (s + 1) b rest (by omega) h
    · rw [if_neg hs] at h
      exact absurd h (by simp)

theorem stepList_bits (map : Nat → Bool) (maxPfn : Nat) :
    ∀ n s, n ≤ (bits_from map maxPfn s).length →
      stepList map maxPfn n ((bits_from map maxPfn s).headD (maxPfn + 1)) =
        (bits_from map maxPfn s).take n := by
  intro n
  induction n with
  | zero => intro s _; simp [stepList]
  | succ n ih =>
    intro s h
    cases hb : bits_from map maxPfn s with
    | nil => rw [hb] at h; simp at h
    | cons b rest =>
      obtain ⟨hble, _, hrest⟩ :=
        bits_from_head map maxPfn (maxPfn + 1 - s) s b rest le_rfl hb
      have hh : (b :: rest).headD (maxPfn + 1) = b := rfl
      rw [hh, List.take_succ_cons]
      simp only [stepList, List.cons.injEq]
      refine ⟨trivial, ?_⟩
      have hg : get_next_bit_on map maxPfn b =
          (bits_from map maxPfn (b + 1)).headD (maxPfn + 1) := by
        unfold get_next_bit_on
        rw [if_neg (by omega)]
      have hr : n ≤ rest.length := by
        rw [hb] at h
        simpa using h
      have hlen : n ≤ (bits_from map maxPfn (b + 1)).length := by
        rw [← hrest]
        exact hr
      rw [hg, ih (b + 1) hlen, ← hrest]

theorem copy_loop_eq_copyRun (p1 p2 : Nat → Bool) (maxPfn : Nat) :
    ∀ n si di mem,
      copy_loop p1 p2 maxPfn n si di mem =
        copyRun mem ((stepList p1 maxPfn n si).zip (stepList p2 maxPfn n di)) := by
  intro n
  induction n with
  | zero => intro si di mem; rfl
  | succ n ih =>
    intro si di mem
    simp only [copy_loop, stepList, List.zip_cons_cons, copyRun]
    rw [ih]
    have hmem : (fun pfn => if pfn = di then
          copy_page_words (mem si) (mem pfn) WORDS_PER_PAGE else mem pfn)
        = fun pfn w => if pfn = di ∧ w < WORDS_PER_PAGE then mem si w else mem pfn w := by
      funext pfn w
      by_cases h : pfn = di
      · subst h
        rw [if_pos rfl, copy_page_words_eq]
        by_cases hw : w < WORDS_PER_PAGE
        · rw [if_pos hw, if_pos ⟨rfl, hw⟩]
        · rw [if_neg hw, if_neg (by tauto)]
      · rw [if_neg h, if_neg (by tauto)]
    rw [hmem]
    rfl

theorem copyRun_not_snd (d : Nat) :
    ∀ (pairs : List (Nat × Nat)) (mem : Nat → Nat → Nat) (w : Nat),
      d ∉ pairs.map Prod.snd → copyRun mem pairs d w = mem d w := by
  intro pairs
  induction pairs with
  | nil => intro mem w _; rfl
  | cons pr rest ih =>
    intro mem w hd
    obtain ⟨s0, d0⟩ := pr
    simp only [List.map_cons, List.mem_cons] at hd
    push_neg at hd
    simp only [copyRun]
    rw [ih _ _ hd.2]
    rw [if_neg (by intro hc; exact hd.1 hc.1)]

theorem copyRun_pair_content :
    ∀ (srcs dsts : List Nat) (mem : Nat → Nat → Nat) (i : Nat),
      dsts.Nodup → srcs.length = dsts.length → i < dsts.length →
      ∀ w, w < WORDS_PER_PAGE →
        copyRun mem (srcs.zip dsts) (dsts.getD i 0) w =
          copyRun mem ((srcs.zip dsts).take i) (srcs.getD i 0) w := by
  intro srcs
  induction srcs with
  | nil =>
    intro dsts mem i _ hlen hi w _
    have h0 : dsts.length = 0 := by simpa using hlen.symm
    omega
  | cons s0 srcs ih =>
    intro dsts mem i hnd hlen hi w hw
    cases dsts with
    | nil => simp at hi
    | cons d0 dsts =>
      simp only [List.zip_cons_cons]
      cases i with
      | zero =>
        simp only [List.getD_cons_zero, List.take_zero]
        simp only [copyRun]
        have hd : d0 ∉ (srcs.zip dsts).map Prod.snd := by
          intro hmem
          obtain ⟨⟨a, b⟩, hz, hba⟩ := List.mem_map.mp hmem
          have hb : b ∈ dsts := (List.of_mem_zip hz).2
          rw [show Prod.snd (a, b) = b from rfl] at hba
          subst hba
          exact (List.nodup_cons.mp hnd).1 hb
        rw [copyRun_not_snd d0 _ _ w hd, if_pos ⟨rfl, hw⟩]
      | succ i =>
        simp only [List.getD_cons_succ, List.take_succ_cons]
        simp only [copyRun]
        exact ih dsts _ i (List.nodup_cons.mp hnd).2 (by simpa using hlen)
          (by simpa using hi) w hw

/-- C1: Atomic copy fidelity.  Whenever pageset1_map and pageset1_copy_map
each have at least pagedir1.size set bits below max_pfn + 1,
suspend_copy_pageset1 pairs the i-th set PFN of pageset1_map with the i-th
set PFN of pageset1_copy_map; the pairing is injective (the destination list
has no duplicates), and after the run the i-th destination page's words equal
the words its paired source page held at the moment it was copied (i.e. after
the first i copy steps). -/
theorem atomic_copy_fidelity (pageset1_map pageset1_copy_map : Nat → Bool)
    (maxPfn n : Nat) (mem : Nat → Nat → Nat)
    (h1 : n ≤ (bits_from pageset1_map maxPfn 0).length)
    (h2 : n ≤ (bits_from pageset1_copy_map maxPfn 0).length) :
    ((bits_from pageset1_copy_map maxPfn 0).take n).Nodup ∧
    ∀ i, i < n → ∀ w, w < WORDS_PER_PAGE →
      suspend_copy_pageset1 pageset1_map pageset1_copy_map maxPfn n mem
          (((bits_from pageset1_copy_map maxPfn 0).take n).getD i 0) w =
        copyRun mem
          ((((bits_from pageset1_map maxPfn 0).take n).zip
            ((bits_from pageset1_copy_map maxPfn 0).take n)).take i)
          (((bits_from pageset1_map maxPfn 0).take n).getD i 0) w := by
  have hnodup : ((bits_from pageset1_copy_map maxPfn 0).take n).Nodup :=
    List.Nodup.sublist (List.take_sublist _ _)
      (List.Nodup.filter _ (List.nodup_range' _ _))
  refine ⟨hnodup, ?_⟩
  intro i hi w hw
  have hstart1 : get_next_bit_on pageset1_map maxPfn (maxPfn + 1) =
      (bits_from pageset1_map maxPfn 0).headD (maxPfn + 1) := by
    unfold get_next_bit_on
    rw [if_pos (by omega)]
  have hstart2 : get_next_bit_on pageset1_copy_map maxPfn (maxPfn + 1) =
      (bits_from pageset1_copy_map maxPfn 0).headD (maxPfn + 1) := by
    unfold get_next_bit_on
    rw [if_pos (by omega)]
  have e1 : suspend_copy_pageset1 pageset1_map pageset1_copy_map maxPfn n mem =
      copyRun mem (((bits_from pageset1_map maxPfn 0).take n).zip
        ((bits_from pageset1_copy_map maxPfn 0).take n)) := by
    unfold suspend_copy_pageset1
    rw [copy_loop_eq_copyRun, hstart1, hstart2,
      stepList_bits pageset1_map maxPfn n 0 h1,
      stepList_bits pageset1_copy_map maxPfn n 0 h2]
  rw [e1]
  apply copyRun_pair_content
  · exact hnodup
  · rw [List.length_take, List.length_take]
    omega
  · rw [List.length_take]
    omega
  · exact hw

/-- Witness for C1 at a concrete instance: max_pfn = 5, pageset1 bits {1, 3},
pageset1-copy bits {2, 4}, pagedir1.size = 2. -/
theorem atomic_copy_fidelity_witness :
    (2 ≤ (bits_from (fun p => p == 1 || p == 3) 5 0).length ∧
     2 ≤ (bits_from (fun p => p == 2 || p == 4) 5 0).length) ∧
    (((bits_from (fun p => p == 2 || p == 4) 5 0).take 2).Nodup ∧
    ∀ i, i < 2 → ∀ w, w < WORDS_PER_PAGE →
      suspend_copy_pageset1 (fun p => p == 1 || p == 3) (fun p => p == 2 || p == 4) 5 2
          (fun pfn w => 1000 * pfn + w)
          (((bits_from (fun p => p == 2 || p == 4) 5 0).take 2).getD i 0) w =
        copyRun (fun pfn w => 1000 * pfn + w)
          ((((bits_from (fun p => p == 1 || p == 3) 5 0).take 2).zip
            ((bits_from (fun p => p == 2 || p == 4) 5 0).take 2)).take i)
          (((bits_from (fun p => p == 1 || p == 3) 5 0).take 2).getD i 0) w) :=
  ⟨⟨by decide, by decide⟩,
   atomic_copy_fidelity (fun p => p == 1 || p == 3) (fun p => p == 2 || p == 4) 5 2
     (fun pfn w => 1000 * pfn + w) (by decide) (by decide)⟩

/-- C2: Allowance violation detection.  If the re-measured pagedir1.size grew
over the pre-copy size by more than extra_pd1_pages_allowance,
__suspend_post_context_save records the EXTRA_PAGES_ALLOW_TOO_SMALL abort
(with the umbrella SUSPEND_ABORTED flag) and returns -1 without invoking
suspend_copy_pageset1; otherwise it returns 0 and the copy runs exactly when
neither test-mode action flag is set. -/
theorem allowance_violation_detection (old_size new_size allowance : Int)
    (toi_action toi_result : FlagWord) :
    (new_size - old_size > allowance →
      (__suspend_post_context_save old_size new_size allowance toi_action toi_result).ret = -1 ∧
      test_flag SUSPEND_EXTRA_PAGES_ALLOW_TOO_SMALL
        (__suspend_post_context_save old_size new_size allowance toi_action toi_result).toi_result
          = true ∧
      test_flag SUSPEND_ABORTED
        (__suspend_post_context_save old_size new_size allowance toi_action toi_result).toi_result
          = true ∧
      (__suspend_post_context_save old_size new_size allowance toi_action
        toi_result).copied_pageset1 = false) ∧
    (new_size - old_size ≤ allowance →
      (__suspend_post_context_save old_size new_size allowance toi_action toi_result).ret = 0 ∧
      (__suspend_post_context_save old_size new_size allowance toi_action
        toi_result).toi_result = toi_result ∧
      ((__suspend_post_context_save old_size new_size allowance toi_action
          toi_result).copied_pageset1 = true ↔
        (test_flag SUSPEND_TEST_FILTER_SPEED toi_action = false ∧
         test_flag SUSPEND_TEST_BIO toi_action = false))) := by
  constructor
  · intro h
    have hcond : new_size - old_size > allowance := h
    simp [__suspend_post_context_save, hcond, test_flag, set_abort_result]
  · intro h
    have hcond : ¬ new_size - old_size > allowance := by omega
    simp [__suspend_post_context_save, hcond, test_flag, set_abort_result]

/-- Witness for C2 at concrete inputs (growth 5 over allowance 3, and growth
1 under allowance 3 with no test flags). -/
theorem allowance_violation_detection_witness :
    ((10 : Int) - 5 > 3 →
      (__suspend_post_context_save 5 10 3 [] []).ret = -1 ∧
      test_flag SUSPEND_EXTRA_PAGES_ALLOW_TOO_SMALL
        (__suspend_post_context_save 5 10 3 [] []).toi_result = true ∧
      test_flag SUSPEND_ABORTED (__suspend_post_context_save 5 10 3 [] []).toi_result = true ∧
      (__suspend_post_context_save 5 10 3 [] []).copied_pageset1 = false) ∧
    ((10 : Int) - 5 ≤ 3 →
      (__suspend_post_context_save 5 10 3 [] []).ret = 0 ∧
      (__suspend_post_context_save 5 10 3 [] []).toi_result = [] ∧
      ((__suspend_post_context_save 5 10 3 [] []).copied_pageset1 = true ↔
        (test_flag SUSPEND_TEST_FILTER_SPEED [] = false ∧
         test_flag SUSPEND_TEST_BIO [] = false))) :=
  allowance_violation_detection 5 10 3 [] []

theorem flag_loop_skip : ∀ (l : List PageDesc) (s : Nat) (c : ImgCounts),
    flag_loop l s c = flag_loop (l.drop s) 0 c := by
  intro l
  induction l with
  | nil => intro s c; cases s <;> simp [flag_loop]
  | cons p rest ih =>
    intro s c
    cases s with
    | zero => rw [List.drop_zero]
    | succ s =>
      show flag_loop rest s c = _
      rw [ih, List.drop_succ_cons]

theorem drop_takeWhile_length {α : Type} (q : α → Bool) :
    ∀ (l : List α), l.drop (l.takeWhile q).length = l.dropWhile q := by
  intro l
  induction l with
  | nil => rfl
  | cons a l ih =>
    by_cases h : q a
    · rw [List.takeWhile_cons_of_pos h, List.dropWhile_cons_of_pos h]
      simpa using ih
    · rw [List.takeWhile_cons_of_neg h, List.dropWhile_cons_of_neg h, List.length_nil,
        List.drop_zero]

theorem zone_add_nil (c : ImgCounts) : zone_add c [] = c := by
  cases c
  simp [zone_add]

theorem zone_add_cons (c : ImgCounts) (p : PageDesc) (rest : List PageDesc) :
    zone_add c (p :: rest) = zone_add (zone_add c [p]) rest := by
  simp only [zone_add, List.countP_cons, List.countP_nil, ImgCounts.mk.injEq]
  exact ⟨by omega, by omega, by omega, by omega, by omega, by omega⟩

theorem zone_add_append (c : ImgCounts) (l1 l2 : List PageDesc) :
    zone_add c (l1 ++ l2) = zone_add (zone_add c l1) l2 := by
  simp only [zone_add, List.countP_append, ImgCounts.mk.injEq]
  exact ⟨by omega, by omega, by omega, by omega, by omega, by omega⟩

theorem flag_loop_invalid (p : PageDesc) (rest : List PageDesc) (c : ImgCounts)
    (h : p.pfn_valid = false) : flag_loop (p :: rest) 0 c = flag_loop rest 0 c := by
  simp [flag_loop, h]

theorem flag_loop_free (p : PageDesc) (rest : List PageDesc) (c : ImgCounts)
    (hv : p.pfn_valid = true) (hf : p.nosave_free = true) :
    flag_loop (p :: rest) 0 c =
      flag_loop rest (rest.takeWhile (fun q => q.nosave_free)).length
        { c with num_free := c.num_free + (1 + (rest.takeWhile (fun q => q.nosave_free)).length) } := by
  simp [flag_loop, hv, hf]

theorem flag_loop_nosave (p : PageDesc) (rest : List PageDesc) (c : ImgCounts)
    (hv : p.pfn_valid = true) (hf : p.nosave_free = false)
    (hs : (!p.saveable || p.nosave) = true) :
    flag_loop (p :: rest) 0 c = flag_loop rest 0 { c with num_nosave := c.num_nosave + 1 } := by
  simp [flag_loop, hv, hf, hs]

theorem flag_loop_ps2_resave (p : PageDesc) (rest : List PageDesc) (c : ImgCounts)
    (hv : p.pfn_valid = true) (hf : p.nosave_free = false)
    (hs : (!p.saveable || p.nosave) = false) (hp2 : p.pageset2 = true)
    (hrs : p.resave = true) :
    flag_loop (p :: rest) 0 c = flag_loop rest 0
      { c with pd2_size := c.pd2_size + 1
               pd2_high := c.pd2_high + (if p.highmem then 1 else 0)
               pd1_size := c.pd1_size + 1
               pd1_high := c.pd1_high + (if p.highmem then 1 else 0) } := by
  simp [flag_loop, hv, hf, hs, hp2, hrs]

theorem flag_loop_ps2_plain (p : PageDesc) (rest : List PageDesc) (c : ImgCounts)
    (hv : p.pfn_valid = true) (hf : p.nosave_free = false)
    (hs : (!p.saveable || p.nosave) = false) (hp2 : p.pageset2 = true)
    (hrs : p.resave = false) :
    flag_loop (p :: rest) 0 c = flag_loop rest 0
      { c with pd2_size := c.pd2_size + 1
               pd2_high := c.pd2_high + (if p.highmem then 1 else 0) } := by
  simp [flag_loop, hv, hf, hs, hp2, hrs]

theorem flag_loop_ps1 (p : PageDesc) (rest : List PageDesc) (c : ImgCounts)
    (hv : p.pfn_valid = true) (hf : p.nosave_free = false)
    (hs : (!p.saveable || p.nosave) = false) (hp2 : p.pageset2 = false) :
    flag_loop (p :: rest) 0 c = flag_loop rest 0
      { c with pd1_size := c.pd1_size + 1
               pd1_high := c.pd1_high + (if p.highmem then 1 else 0) } := by
  simp [flag_loop, hv, hf, hs, hp2]

theorem flag_loop_classify (p : PageDesc) (rest : List PageDesc) (c : ImgCounts)
    (hv : p.pfn_valid = true) (hf : p.nosave_free = false) :
    flag_loop (p :: rest) 0 c = flag_loop rest 0 (zone_add c [p]) := by
  rcases p with ⟨v, nf, sv, ns, p2, rs, hm⟩
  simp only at hv hf
  subst hv
  subst hf
  cases sv <;> cases ns <;> cases p2 <;> cases rs <;> cases hm <;>
    simp [flag_loop, zone_add, counted_ps1, counted_ps2, counted_nosave, classified,
      List.countP_cons, List.countP_nil]

theorem zone_add_skipped (p : PageDesc) (c : ImgCounts)
    (hv : p.pfn_valid = false) (hf : p.nosave_free = false) :
    zone_add c [p] = c := by
  rcases p with ⟨v, nf, sv, ns, p2, rs, hm⟩
  simp only at hv hf
  subst hv
  subst hf
  cases c
  simp [zone_add, counted_ps1, counted_ps2, counted_nosave, classified,
    List.countP_cons, List.countP_nil]

theorem flag_loop_counts :
    ∀ (n : Nat) (l : List PageDesc) (c : ImgCounts),
      l.length ≤ n →
      (∀ p ∈ l, p.nosave_free = true → p.pfn_valid = true) →
      flag_loop l 0 c = zone_add c l := by
  intro n
  induction n with
  | zero =>
    intro l c hl _
    have hnil : l = [] := List.length_eq_zero.mp (by omega)
    subst hnil
    rw [zone_add_nil]
    rfl
  | succ n ih =>
    intro l c hl hv
    cases l with
    | nil => rw [zone_add_nil]; rfl
    | cons p rest =>
      have hv_rest : ∀ r ∈ rest, r.nosave_free = true → r.pfn_valid = true :=
        fun r hr => hv r (List.mem_cons_of_mem _ hr)
      have hlen_rest : rest.length ≤ n := by
        simp only [List.length_cons] at hl
        omega
      rw [zone_add_cons]
      by_cases hval : p.pfn_valid = true
      · by_cases hfree : p.nosave_free = true
        · rw [flag_loop_free p rest c hval hfree, flag_loop_skip, drop_takeWhile_length]
          have hsub : (rest.dropWhile (fun r => r.nosave_free)).Sublist rest :=
            List.dropWhile_sublist _
          rw [ih _ _ (le_trans hsub.length_le hlen_rest)
            (fun r hr => hv_rest r (hsub.subset hr))]
          have hsplit : rest.takeWhile (fun r => r.nosave_free) ++
              rest.dropWhile (fun r => r.nosave_free) = rest :=
            List.takeWhile_append_dropWhile _ _
          have htw : ∀ r ∈ rest.takeWhile (fun r => r.nosave_free), r.nosave_free = true :=
            fun r hr => List.mem_takeWhile_imp hr
          have e_ps1 : (rest.takeWhile (fun r => r.nosave_free)).countP counted_ps1 = 0 :=
            List.countP_eq_zero.mpr (fun r hr => by simp [counted_ps1, classified, htw r hr])
          have e_ps1h : (rest.takeWhile (fun r => r.nosave_free)).countP
              (fun r => counted_ps1 r && r.highmem) = 0 :=
            List.countP_eq_zero.mpr (fun r hr => by simp [counted_ps1, classified, htw r hr])
          have e_ps2 : (rest.takeWhile (fun r => r.nosave_free)).countP counted_ps2 = 0 :=
            List.countP_eq_zero.mpr (fun r hr => by simp [counted_ps2, classified, htw r hr])
          have e_ps2h : (rest.takeWhile (fun r => r.nosave_free)).countP
              (fun r => counted_ps2 r && r.highmem) = 0 :=
            List.countP_eq_zero.mpr (fun r hr => by simp [counted_ps2, classified, htw r hr])
          have e_ns : (rest.takeWhile (fun r => r.nosave_free)).countP counted_nosave = 0 :=
            List.countP_eq_zero.mpr (fun r hr => by simp [counted_nosave, htw r hr])
          have e_free : (rest.takeWhile (fun r => r.nosave_free)).countP
              (fun r => r.nosave_free) = (rest.takeWhile (fun r => r.nosave_free)).length :=
            List.countP_eq_length.mpr htw
          have p_ps1 : counted_ps1 p = false := by simp [counted_ps1, classified, hfree]
          have p_ps1h : (counted_ps1 p && p.highmem) = false := by rw [p_ps1]; rfl
          have p_ps2 : counted_ps2 p = false := by simp [counted_ps2, classified, hfree]
          have p_ps2h : (counted_ps2 p && p.highmem) = false := by rw [p_ps2]; rfl
          have p_ns : counted_nosave p = false := by simp [counted_nosave, hfree]
          have hrw : ∀ X : PageDesc → Bool,
              rest.countP X = (rest.takeWhile (fun r => r.nosave_free)).countP X +
                (rest.dropWhile (fun r => r.nosave_free)).countP X := by
            intro X
            conv_lhs => rw [← hsplit]
            rw [List.countP_append]
          simp only [zone_add, List.countP_cons, List.countP_nil, hrw, e_ps1, e_ps1h,
            e_ps2, e_ps2h, e_ns, e_free, p_ps1, p_ps1h, p_ps2, p_ps2h, p_ns, hfree,
            ImgCounts.mk.injEq]
          refine ⟨?_, ?_, ?_, ?_, ?_, ?_⟩ <;> (simp; try omega)
        · have hfree' : p.nosave_free = false := by
            cases h2 : p.nosave_free
            · rfl
            · exact absurd h2 hfree
          rw [flag_loop_classify p rest c hval hfree', ih rest _ hlen_rest hv_rest]
      · have hval' : p.pfn_valid = false := by
          cases h2 : p.pfn_valid
          · rfl
          · exact absurd h2 hval
        have hfree' : p.nosave_free = false := by
          cases h2 : p.nosave_free
          · rfl
          · exact absurd (hv p (List.mem_cons_self _ _) h2) (by simp [hval'])
        rw [flag_loop_invalid p rest c hval', ih rest _ hlen_rest hv_rest,
          zone_add_skipped p c hval' hfree']

theorem flag_image_pages_counts (zones : List (List PageDesc))
    (hv : ∀ z ∈ zones, ∀ p ∈ z, p.nosave_free = true → p.pfn_valid = true) :
    flag_image_pages zones = zone_add ⟨0, 0, 0, 0, 0, 0⟩ zones.flatten := by
  unfold flag_image_pages
  suffices h : ∀ (zs : List (List PageDesc)) (c : ImgCounts),
      (∀ z ∈ zs, ∀ p ∈ z, p.nosave_free = true → p.pfn_valid = true) →
      zs.foldl (fun c z => flag_loop z 0 c) c = zone_add c zs.flatten by
    exact h zones _ hv
  intro zs
  induction zs with
  | nil => intro c _; simp [zone_add_nil]
  | cons z zs ih =>
    intro c hzs
    simp only [List.foldl_cons, List.flatten_cons]
    rw [flag_loop_counts z.length z c le_rfl (hzs z (List.mem_cons_self _ _)),
      ih _ (fun z2 h2 => hzs z2 (List.mem_cons_of_mem _ h2)), zone_add_append]

theorem page_partition (p : PageDesc) (h : p.nosave_free = true → p.pfn_valid = true) :
    (if counted_ps1 p then 1 else 0) + (if counted_ps2 p then 1 else 0) +
      (if counted_nosave p then 1 else 0) + (if p.nosave_free then 1 else 0) =
    (if p.pfn_valid then (1 : Nat) else 0) + (if double_counted p then 1 else 0) := by
  rcases p with ⟨v, nf, sv, ns, p2, rs, hm⟩
  simp only at h
  cases v <;> cases nf <;> cases sv <;> cases ns <;> cases p2 <;> cases rs <;>
    simp_all [counted_ps1, counted_ps2, counted_nosave, double_counted, classified]

theorem count_partition :
    ∀ (l : List PageDesc), (∀ p ∈ l, p.nosave_free = true → p.pfn_valid = true) →
      l.countP counted_ps1 + l.countP counted_ps2 + l.countP counted_nosave +
        l.countP (fun p => p.nosave_free) =
      l.countP (fun p => p.pfn_valid) + l.countP double_counted := by
  intro l
  induction l with
  | nil => intro _; rfl
  | cons p rest ih =>
    intro hv
    have hp := page_partition p (hv p (List.mem_cons_self _ _))
    have hr := ih (fun r h2 => hv r (List.mem_cons_of_mem _ h2))
    simp only [List.countP_cons]
    omega

/-- C3 (counterexample): a single valid, saveable, pageset2-eligible page
flagged resave is counted in both pagedir1 and pagedir2, so the four-way sum
is 2 while only one valid page was scanned — the exactly-one partition claim
fails as stated. -/
theorem classification_partition_cex :
    (flag_image_pages [[resave_page]]).pd1_size + (flag_image_pages [[resave_page]]).pd2_size +
        (flag_image_pages [[resave_page]]).num_nosave +
        (flag_image_pages [[resave_page]]).num_free = 2 ∧
    [[resave_page]].flatten.countP (fun p => p.pfn_valid) = 1 ∧
    (flag_image_pages [[resave_page]]).pd1_size = 1 ∧
    (flag_image_pages [[resave_page]]).pd2_size = 1 := by
  decide

/-- C3 (amended): after one classification pass every page is counted in
exactly one of {nosave, pageset1, pageset2, free}, except resave-flagged
pageset2 pages, which are counted in both pageset1 and pageset2; hence
pagedir1.size + pagedir2.size + num_nosave + num_free equals the number of
valid pages scanned plus the number of resave-flagged pageset2 pages.
(The hypothesis — free-list pages are valid pages — is established by
generate_free_page_map, which only sets PageNosaveFree on free-list pages.) -/
theorem classification_partition_amended (zones : List (List PageDesc))
    (hv : ∀ z ∈ zones, ∀ p ∈ z, p.nosave_free = true → p.pfn_valid = true) :
    (flag_image_pages zones).pd1_size = zones.flatten.countP counted_ps1 ∧
    (flag_image_pages zones).pd2_size = zones.flatten.countP counted_ps2 ∧
    (flag_image_pages zones).num_nosave = zones.flatten.countP counted_nosave ∧
    (flag_image_pages zones).num_free = zones.flatten.countP (fun p => p.nosave_free) ∧
    (flag_image_pages zones).pd1_size + (flag_image_pages zones).pd2_size +
        (flag_image_pages zones).num_nosave + (flag_image_pages zones).num_free =
      zones.flatten.countP (fun p => p.pfn_valid) + zones.flatten.countP double_counted ∧
    ∀ p : PageDesc, (p.nosave_free = true → p.pfn_valid = true) →
      (if counted_ps1 p then 1 else 0) + (if counted_ps2 p then 1 else 0) +
        (if counted_nosave p then 1 else 0) + (if p.nosave_free then 1 else 0) =
      (if p.pfn_valid then (1 : Nat) else 0) + (if double_counted p then 1 else 0) := by
  have he := flag_image_pages_counts zones hv
  have hvj : ∀ p ∈ zones.flatten, p.nosave_free = true → p.pfn_valid = true := by
    intro p hp
    obtain ⟨z, hz, hpz⟩ := List.mem_flatten.mp hp
    exact hv z hz p hpz
  rw [he]
  have hsum := count_partition zones.flatten hvj
  simp only [zone_add]
  refine ⟨by simp, by simp, by simp, by simp, ?_, fun p hp => page_partition p hp⟩
  simp only [Nat.zero_add]
  omega

set_option maxRecDepth 100000 in
/-- C4: the §8 end-to-end scenario — 1000 valid non-free pages, 50 nosave,
300 pageset2-eligible of which 10 are resave-flagged, 650 ordinary — yields
pagedir1.size = 660 and pagedir2.size = 300 (resave pages counted in both). -/
theorem resave_double_counting :
    (flag_image_pages scenario_zones).pd1_size = 660 ∧
    (flag_image_pages scenario_zones).pd2_size = 300 := by
  constructor <;> rfl

/-- Witness for C3 (amended) at the concrete `witness_zones` page space. -/
theorem classification_partition_amended_witness :
    (∀ z ∈ witness_zones, ∀ p ∈ z, p.nosave_free = true → p.pfn_valid = true) ∧
    ((flag_image_pages witness_zones).pd1_size +
        (flag_image_pages witness_zones).pd2_size +
        (flag_image_pages witness_zones).num_nosave +
        (flag_image_pages witness_zones).num_free =
      witness_zones.flatten.countP (fun p => p.pfn_valid) +
        witness_zones.flatten.countP double_counted) :=
  ⟨by decide, (classification_partition_amended witness_zones (by decide)).2.2.2.2.1⟩

theorem tdiv_two_eq (n : Int) : n.tdiv 2 = if 0 ≤ n then n / 2 else -((-n) / 2) := by
  split
  · exact Int.tdiv_eq_ediv (by assumption) (by norm_num)
  · rw [show n.tdiv 2 = -((-n).tdiv 2) by rw [Int.neg_tdiv, neg_neg]]
    rw [Int.tdiv_eq_ediv (by omega) (by norm_num)]

theorem fdiv_two_eq (n : Int) : n.fdiv 2 = n / 2 := Int.fdiv_eq_ediv n (by norm_num)

/-- C6: the derived-quantity formulas.  The code's amount_needed (built from
DIV_ROUND_UP, i.e. truncating C division) coincides with the spec's formulas
written with exact ceilings, for every state whose free-high-page count is
nonnegative (free-page counts are counts, hence nonnegative). -/
theorem derived_quantity_formulas (s : PrepState) (h : 0 ≤ s.free_high_pages) (u : Bool) :
    amount_needed s u = spec_amount_needed s u := by
  have hh : highpages_ps1_to_free s = spec_highpages_to_free s := by
    unfold highpages_ps1_to_free spec_highpages_to_free div_round_up cdiv spec_ceil_half
      get_highmem_size_pd1 get_highmem_size_pd2
    rw [show s.ps1_high - s.ps2_high + 2 - 1 = (s.ps1_high - s.ps2_high) + 1 by ring,
      tdiv_two_eq, fdiv_two_eq]
    split <;> omega
  have hl : lowpages_ps1_to_free s = spec_lowpages_to_free s := by
    unfold lowpages_ps1_to_free spec_lowpages_to_free div_round_up cdiv spec_ceil_half
      get_lowmem_size_pd1 get_lowmem_size_pd2
    rw [show (s.ps1_size - s.ps1_high) + s.extra_pd1_pages_allowance + s.min_free_ram +
          s.memory_for_modules - (s.ps2_size - s.ps2_high) - s.free_low_pages -
          s.extra_pages_allocated + 2 - 1 =
        ((s.ps1_size - s.ps1_high) + s.extra_pd1_pages_allowance + s.min_free_ram +
          s.memory_for_modules - (s.ps2_size - s.ps2_high) - s.free_low_pages -
          s.extra_pages_allocated) + 1 by ring,
      tdiv_two_eq, fdiv_two_eq]
    split <;> omega
  have ha : any_to_free s u = max (spec_storage_shortfall s) (spec_user_limit_shortfall s u) := by
    unfold any_to_free spec_storage_shortfall spec_user_limit_shortfall
    rw [max_comm]
  unfold amount_needed spec_amount_needed
  rw [hh, hl, ha]

/-- Witness for C6 at a concrete state with nonnegative free-high count. -/
theorem derived_quantity_formulas_witness :
    (0 : Int) ≤ (⟨100, 20, 30, 10, 5, 40, 50, 7, 3, 2, 100, 8192, 16, 9, 11, 13⟩ :
        PrepState).free_high_pages ∧
    amount_needed ⟨100, 20, 30, 10, 5, 40, 50, 7, 3, 2, 100, 8192, 16, 9, 11, 13⟩ true =
      spec_amount_needed ⟨100, 20, 30, 10, 5, 40, 50, 7, 3, 2, 100, 8192, 16, 9, 11, 13⟩ true :=
  ⟨by decide,
   derived_quantity_formulas ⟨100, 20, 30, 10, 5, 40, 50, 7, 3, 2, 100, 8192, 16, 9, 11, 13⟩
     (by decide) true⟩

theorem prep_loop_calls (eat upd : SysState → SysState) :
    ∀ (fuel : Nat) (tries : Int) (s : SysState),
      (prep_loop eat upd fuel tries s).2.1 ≤ (MAX_TRIES - tries).toNat + 1 ∧
      (prep_loop eat upd fuel tries s).2.2 ≤ (MAX_TRIES - tries).toNat + 1 := by
  intro fuel
  induction fuel with
  | zero =>
    intro tries s
    simp [prep_loop]
  | succ fuel ih =>
    intro tries s
    simp only [prep_loop]
    by_cases ha : aborted (eat s) = true
    · simp [ha]
    · simp only [Bool.not_eq_true] at ha
      simp only [ha, Bool.false_eq_true, if_false]
      by_cases hc : (image_not_ready (upd (eat s)).meas true &&
          decide (tries + 1 ≤ MAX_TRIES) && !aborted (upd (eat s))) = true
      · simp only [hc, if_true]
        have ht : tries + 1 ≤ MAX_TRIES := by
          simp only [Bool.and_eq_true, decide_eq_true_eq] at hc
          exact hc.1.2
        obtain ⟨ih1, ih2⟩ := ih (tries + 1) (upd (eat s))
        have hto : (MAX_TRIES - (tries + 1)).toNat + 1 ≤ (MAX_TRIES - tries).toNat := by
          unfold MAX_TRIES at ht ⊢
          omega
        exact ⟨by omega, by omega⟩
      · simp only [Bool.not_eq_true] at hc
        simp only [hc, Bool.false_eq_true, if_false]
        constructor
        · simp
        · simp

theorem prep_finish_spec (w : PrepWorld) (s2 : SysState) :
    (prep_finish w s2).eat_calls ≤ 2 ∧
    (prep_finish w s2).update_calls ≤ 2 ∧
    (prep_finish w s2).post_loop = (prep_loop w.eat w.upd 3 1 s2).1 ∧
    (prep_finish w s2).result =
      (if image_not_ready (prep_finish w s2).post_loop.meas false then 1 else 0) ∧
    (aborted (prep_finish w s2).post_loop = false →
      (prep_finish w s2).result = 1 →
      test_flag SUSPEND_UNABLE_TO_PREPARE_IMAGE (prep_finish w s2).final.toi_result = true ∧
      test_flag SUSPEND_ABORTED (prep_finish w s2).final.toi_result = true ∧
      (prep_finish w s2).displayed_stats = true) ∧
    ((prep_finish w s2).unlinked_lru = true ↔
      ((prep_finish w s2).result = 0 ∧ aborted (prep_finish w s2).post_loop = false)) := by
  have hcalls := prep_loop_calls w.eat w.upd 3 1 s2
  have hmax : (MAX_TRIES - 1).toNat + 1 = 2 := by unfold MAX_TRIES; omega
  rw [hmax] at hcalls
  by_cases hab : aborted (prep_loop w.eat w.upd 3 1 s2).1 = true <;>
    by_cases hnr : image_not_ready (prep_loop w.eat w.upd 3 1 s2).1.meas false = true <;>
    simp_all [prep_finish, test_flag, set_abort_result]

theorem suspend_prepare_image_run (w : PrepWorld) (h1 : w.freeze_fails = false)
    (h2 : w.storage_avail_probe ≠ 0) :
    ∃ s2 : SysState, suspend_prepare_image w = prep_finish w s2 := by
  unfold suspend_prepare_image
  simp only [h1, Bool.false_eq_true, if_false]
  by_cases hall : w.init.meas.extra_pd1_pages_allowance = 0 <;>
    simp [hall, h2]

/-- C7: bounded retries and failure reporting.  Past the initial freeze and
storage checks, the eat_memory/update_image loop body runs at most MAX_TRIES
= 2 times (at most 2 eat_memory and 2 update_image executions); if the image
is still not ready afterwards and nothing aborted, the
UNABLE_TO_PREPARE_IMAGE abort (with the umbrella flag) is recorded together
with the diagnostic-statistics display; and unlink_lru_lists runs exactly
when the attempt ends ready and unaborted. -/
theorem bounded_retries (w : PrepWorld) (h1 : w.freeze_fails = false)
    (h2 : w.storage_avail_probe ≠ 0) :
    (suspend_prepare_image w).eat_calls ≤ 2 ∧
    (suspend_prepare_image w).update_calls ≤ 2 ∧
    (aborted (suspend_prepare_image w).post_loop = false →
      (suspend_prepare_image w).result = 1 →
      test_flag SUSPEND_UNABLE_TO_PREPARE_IMAGE
        (suspend_prepare_image w).final.toi_result = true ∧
      test_flag SUSPEND_ABORTED (suspend_prepare_image w).final.toi_result = true ∧
      (suspend_prepare_image w).displayed_stats = true) ∧
    ((suspend_prepare_image w).unlinked_lru = true ↔
      ((suspend_prepare_image w).result = 0 ∧
        aborted (suspend_prepare_image w).post_loop = false)) := by
  obtain ⟨s2, hrun⟩ := suspend_prepare_image_run w h1 h2
  rw [hrun]
  obtain ⟨e1, e2, _, _, e5, e6⟩ := prep_finish_spec w s2
  exact ⟨e1, e2, e5, e6⟩

/-- Witness for C7 at the concrete world `c5_world`. -/
theorem bounded_retries_witness :
    c5_world.freeze_fails = false ∧ c5_world.storage_avail_probe ≠ 0 ∧
    ((suspend_prepare_image c5_world).eat_calls ≤ 2 ∧
     (suspend_prepare_image c5_world).update_calls ≤ 2 ∧
     (aborted (suspend_prepare_image c5_world).post_loop = false →
       (suspend_prepare_image c5_world).result = 1 →
       test_flag SUSPEND_UNABLE_TO_PREPARE_IMAGE
         (suspend_prepare_image c5_world).final.toi_result = true ∧
       test_flag SUSPEND_ABORTED (suspend_prepare_image c5_world).final.toi_result = true ∧
       (suspend_prepare_image c5_world).displayed_stats = true) ∧
     ((suspend_prepare_image c5_world).unlinked_lru = true ↔
       ((suspend_prepare_image c5_world).result = 0 ∧
         aborted (suspend_prepare_image c5_world).post_loop = false))) :=
  ⟨rfl, by decide, bounded_retries c5_world rfl (by decide)⟩

/-- C5 (counterexample): at the world `c5_world` the driver returns success
(result 0) although the three-part readiness condition computed with the
user image-size cap (use_image_size_limit = 1) is still violated at the
post-loop state — the final success check is image_not_ready(0), without the
cap, so one condition cannot govern both the loop exit and the final result. -/
theorem readiness_condition_cex :
    (suspend_prepare_image c5_world).result = 0 ∧
    image_not_ready (suspend_prepare_image c5_world).post_loop.meas true = true := by
  decide

/-- C5 (amended): image_not_ready(u) is false exactly when amount_needed(u)
≤ 0, the header storage allocated covers header_storage_needed, and the main
storage allocated covers main_storage_needed with the compression ratio; the
retry loop exits on this condition with the user cap included (u = 1), but
suspend_prepare_image's final success result applies it with the cap
excluded (u = 0) on the post-loop state. -/
theorem readiness_condition_amended :
    (∀ (s : PrepState) (u : Bool),
      image_not_ready s u = false ↔
        (amount_needed s u ≤ 0 ∧ header_storage_needed s ≤ s.header_space_allocated ∧
         main_storage_needed s true true ≤ s.main_storage_allocated)) ∧
    (∀ w : PrepWorld, w.freeze_fails = false → w.storage_avail_probe ≠ 0 →
      ((suspend_prepare_image w).result = 0 ↔
        image_not_ready (suspend_prepare_image w).post_loop.meas false = false)) := by
  constructor
  · intro s u
    unfold image_not_ready
    simp only [Bool.or_eq_false_iff, decide_eq_false_iff_not, not_lt]
    omega
  · intro w h1 h2
    obtain ⟨s2, hrun⟩ := suspend_prepare_image_run w h1 h2
    rw [hrun]
    obtain ⟨_, _, _, hres, _, _⟩ := prep_finish_spec w s2
    rw [hres]
    by_cases hnr : image_not_ready (prep_finish w s2).post_loop.meas false = true
    · simp [hnr]
    · simp_all

/-- Witness for C5 (amended) at the concrete state and world. -/
theorem readiness_condition_amended_witness :
    c5_world.freeze_fails = false ∧ c5_world.storage_avail_probe ≠ 0 ∧
    (image_not_ready c5_state true = false ↔
      (amount_needed c5_state true ≤ 0 ∧
       header_storage_needed c5_state ≤ c5_state.header_space_allocated ∧
       main_storage_needed c5_state true true ≤ c5_state.main_storage_allocated)) ∧
    ((suspend_prepare_image c5_world).result = 0 ↔
      image_not_ready (suspend_prepare_image c5_world).post_loop.meas false = false) :=
  ⟨rfl, by decide, readiness_condition_amended.1 c5_state true,
   readiness_condition_amended.2 c5_world rfl (by decide)⟩

/-- C8: the image_size_limit = -1 "don't eat any memory" policy.  When the
post-recalculation amount still needed is positive, eat_memory records the
WOULD_EAT_MEMORY abort together with the umbrella SUSPEND_ABORTED flag and
returns after the single recalculation — no shrink_one_zone and no
drop_pagecache call (the event trace is exactly [recalcEv]) — leaving the
counters exactly as just recalculated; when the amount is not positive, no
flag is recorded and again only the recalculation happened. -/
theorem dont_eat_memory_policy (w : EatWorld) (sys : SysState)
    (h : (w.recalc sys.meas).image_size_limit = -1) :
    (amount_needed (w.recalc sys.meas) true > 0 →
      (eat_memory w sys).1.meas = w.recalc sys.meas ∧
      (eat_memory w sys).1.toi_result =
        set_abort_result sys.toi_result SUSPEND_WOULD_EAT_MEMORY ∧
      test_flag SUSPEND_WOULD_EAT_MEMORY (eat_memory w sys).1.toi_result = true ∧
      test_flag SUSPEND_ABORTED (eat_memory w sys).1.toi_result = true ∧
      (eat_memory w sys).2 = [EatEv.recalcEv]) ∧
    (amount_needed (w.recalc sys.meas) true ≤ 0 →
      (eat_memory w sys).1.meas = w.recalc sys.meas ∧
      (eat_memory w sys).1.toi_result = sys.toi_result ∧
      (eat_memory w sys).2 = [EatEv.recalcEv]) := by
  constructor
  · intro hpos
    simp [eat_memory, h, hpos, test_flag, set_abort_result]
  · intro hle
    have hnpos : ¬ amount_needed (w.recalc sys.meas) true > 0 := by omega
    simp [eat_memory, h, hnpos]

/-- Witness for C8 at the concrete world and state. -/
theorem dont_eat_memory_policy_witness :
    (c8_world.recalc (SysState.mk c8_state []).meas).image_size_limit = -1 ∧
    ((amount_needed (c8_world.recalc (SysState.mk c8_state []).meas) true > 0 →
      (eat_memory c8_world (SysState.mk c8_state [])).1.meas =
        c8_world.recalc (SysState.mk c8_state []).meas ∧
      (eat_memory c8_world (SysState.mk c8_state [])).1.toi_result =
        set_abort_result (SysState.mk c8_state []).toi_result SUSPEND_WOULD_EAT_MEMORY ∧
      test_flag SUSPEND_WOULD_EAT_MEMORY
        (eat_memory c8_world (SysState.mk c8_state [])).1.toi_result = true ∧
      test_flag SUSPEND_ABORTED
        (eat_memory c8_world (SysState.mk c8_state [])).1.toi_result = true ∧
      (eat_memory c8_world (SysState.mk c8_state [])).2 = [EatEv.recalcEv]) ∧
    (amount_needed (c8_world.recalc (SysState.mk c8_state []).meas) true ≤ 0 →
      (eat_memory c8_world (SysState.mk c8_state [])).1.meas =
        c8_world.recalc (SysState.mk c8_state []).meas ∧
      (eat_memory c8_world (SysState.mk c8_state [])).1.toi_result =
        (SysState.mk c8_state []).toi_result ∧
      (eat_memory c8_world (SysState.mk c8_state [])).2 = [EatEv.recalcEv])) :=
  ⟨by decide, dont_eat_memory_policy c8_world (SysState.mk c8_state []) (by decide)⟩

theorem nc_recycle_post (w : NCWorld) (cbh : Bool) :
    ∀ (fuel cur p : Nat), (nc_recycle w cbh fuel cur).1 = some p →
      w.pageset1 p = false ∧ (w.highmem p = true → cbh = true) := by
  intro fuel
  induction fuel with
  | zero => intro cur p h; simp [nc_recycle] at h
  | succ fuel ih =>
    intro cur p h
    simp only [nc_recycle] at h
    by_cases h1 : get_next_bit_on w.pageset2_map w.max_pfn cur ≤ w.max_pfn
    · rw [if_pos h1] at h
      by_cases h2 : (!w.pageset1 (get_next_bit_on w.pageset2_map w.max_pfn cur) &&
          (cbh || !w.highmem (get_next_bit_on w.pageset2_map w.max_pfn cur))) = true
      · rw [if_pos h2] at h
        simp only [Option.some.injEq] at h
        subst h
        simp only [Bool.and_eq_true, Bool.not_eq_true', Bool.or_eq_true] at h2
        refine ⟨h2.1, ?_⟩
        intro hhm
        rcases h2.2 with hc | hn
        · exact hc
        · rw [hn] at hhm
          exact absurd hhm (by simp)
      · rw [if_neg h2] at h
        by_cases h3 : get_next_bit_on w.pageset2_map w.max_pfn cur < w.max_pfn
        · rw [if_pos h3] at h
          exact ih _ p h
        · rw [if_neg h3] at h
          simp at h
    · rw [if_neg h1] at h
      by_cases h3 : get_next_bit_on w.pageset2_map w.max_pfn cur + 1 < w.max_pfn
      · rw [if_pos h3] at h
        exact ih _ p h
      · rw [if_neg h3] at h
        simp at h

theorem alloc_loop_post (w : NCWorld) (cbh : Bool) :
    ∀ (allocs : List (Option Nat)) (conflicting : List Nat),
      (∀ p : Nat, (alloc_loop w cbh allocs conflicting).1 = some p →
        w.pageset1 p = false ∧ some p ∈ allocs) ∧
      (∃ chained : List Nat,
        (alloc_loop w cbh allocs conflicting).2.2 = chained ++ conflicting ∧
        ∀ q ∈ chained, w.pageset1 q = true) := by
  intro allocs
  induction allocs with
  | nil =>
    intro conflicting
    exact ⟨fun p h => by simp [alloc_loop] at h, ⟨[], rfl, by simp⟩⟩
  | cons a rest ih =>
    intro conflicting
    cases a with
    | none =>
      exact ⟨fun p h => by simp [alloc_loop] at h, ⟨[], rfl, by simp⟩⟩
    | some q =>
      by_cases hq : w.pageset1 q = true
      · have hred : alloc_loop w cbh (some q :: rest) conflicting =
            alloc_loop w cbh rest (q :: conflicting) := by
          simp [alloc_loop, hq]
        obtain ⟨ih1, chained, hch, hall⟩ := ih (q :: conflicting)
        refine ⟨?_, ?_⟩
        · intro p h
          rw [hred] at h
          obtain ⟨hp1, hp2⟩ := ih1 p h
          exact ⟨hp1, List.mem_cons_of_mem _ hp2⟩
        · refine ⟨chained ++ [q], ?_, ?_⟩
          · rw [hred, hch]
            simp
          · intro r hr
            rcases List.mem_append.mp hr with hr1 | hr2
            · exact hall r hr1
            · rw [List.mem_singleton.mp hr2]
              exact hq
      · have hq' : w.pageset1 q = false := by
          cases hqq : w.pageset1 q
          · rfl
          · exact absurd hqq hq
        have hred : alloc_loop w cbh (some q :: rest) conflicting =
            (some q, rest, conflicting) := by
          simp [alloc_loop, hq']
        refine ⟨?_, ⟨[], by rw [hred]; simp, by simp⟩⟩
        intro p h
        rw [hred] at h
        simp only [Option.some.injEq] at h
        subst h
        exact ⟨hq', List.mem_cons_self _ _⟩

/-- C9: ___suspend_get_nonconflicting_page postcondition.  Under the GFP
contract that the allocator only hands out highmem pages when __GFP_HIGHMEM
was passed (every page in the allocation stream is highmem only if
can_be_highmem), every page returned is not a pageset1 page and is highmem
only if can_be_highmem; every page chained during the call is a pageset1
page and the private conflicting-pages list only grows (nothing is freed by
the call); and free_conflicting_pages releases exactly that whole list,
leaving it empty. -/
theorem nonconflicting_page_postcondition (w : NCWorld) (cbh : Bool) (st : NCState)
    (hga : ∀ p : Nat, some p ∈ st.allocs → w.highmem p = true → cbh = true) :
    (∀ p : Nat, (___suspend_get_nonconflicting_page w cbh st).1 = some p →
      w.pageset1 p = false ∧ (w.highmem p = true → cbh = true)) ∧
    (∃ chained : List Nat,
      (___suspend_get_nonconflicting_page w cbh st).2.first_conflicting_page =
        chained ++ st.first_conflicting_page ∧
      ∀ q ∈ chained, w.pageset1 q = true) ∧
    (free_conflicting_pages (___suspend_get_nonconflicting_page w cbh st).2).2 =
      (___suspend_get_nonconflicting_page w cbh st).2.first_conflicting_page ∧
    (free_conflicting_pages
      (___suspend_get_nonconflicting_page w cbh st).2).1.first_conflicting_page = [] := by
  suffices h : (∀ p : Nat, (___suspend_get_nonconflicting_page w cbh st).1 = some p →
      w.pageset1 p = false ∧ (w.highmem p = true → cbh = true)) ∧
      (∃ chained : List Nat,
        (___suspend_get_nonconflicting_page w cbh st).2.first_conflicting_page =
          chained ++ st.first_conflicting_page ∧
        ∀ q ∈ chained, w.pageset1 q = true) by
    exact ⟨h.1, h.2, rfl, rfl⟩
  unfold ___suspend_get_nonconflicting_page
  by_cases hcond : (w.loading_alt && w.pageset2_map_present &&
      decide (st.ps2_pfn < w.max_pfn + 2)) = true
  · rw [if_pos hcond]
    cases hrec : nc_recycle w cbh (w.max_pfn + 3) st.ps2_pfn with
    | mk r0 c0 =>
      cases r0 with
      | some p =>
        refine ⟨?_, ⟨[], rfl, by simp⟩⟩
        intro p2 h
        simp only [Option.some.injEq] at h
        cases h
        have hpost := nc_recycle_post w cbh (w.max_pfn + 3) st.ps2_pfn p
        rw [hrec] at hpost
        exact hpost rfl
      | none =>
        obtain ⟨ha1, chained, hch, hall⟩ := alloc_loop_post w cbh st.allocs
          st.first_conflicting_page
        refine ⟨?_, ⟨chained, hch, hall⟩⟩
        intro p h
        obtain ⟨hp1, hp2⟩ := ha1 p h
        exact ⟨hp1, hga p hp2⟩
  · rw [if_neg hcond]
    obtain ⟨ha1, chained, hch, hall⟩ := alloc_loop_post w cbh st.allocs
      st.first_conflicting_page
    refine ⟨?_, ⟨chained, hch, hall⟩⟩
    intro p h
    obtain ⟨hp1, hp2⟩ := ha1 p h
    exact ⟨hp1, hga p hp2⟩

/-- Witness for C9: a world loading an alternate image where the first
pageset2 candidate (PFN 2) is itself a pageset1 page and PFN 4 is free of
conflicts; the allocator stream is empty. -/
theorem nonconflicting_page_postcondition_witness :
    (∀ p : Nat,
      some p ∈ (NCState.mk 6 [] [] : NCState).allocs →
      (NCWorld.mk 5 true true (fun p => p == 2 || p == 4) (fun p => p == 2)
        (fun _ => false)).highmem p = true → false = true) ∧
    ((∀ p : Nat,
      (___suspend_get_nonconflicting_page
        (NCWorld.mk 5 true true (fun p => p == 2 || p == 4) (fun p => p == 2)
          (fun _ => false)) false (NCState.mk 6 [] [])).1 = some p →
      (NCWorld.mk 5 true true (fun p => p == 2 || p == 4) (fun p => p == 2)
        (fun _ => false)).pageset1 p = false ∧
      ((NCWorld.mk 5 true true (fun p => p == 2 || p == 4) (fun p => p == 2)
        (fun _ => false)).highmem p = true → false = true)) ∧
    (∃ chained : List Nat,
      (___suspend_get_nonconflicting_page
        (NCWorld.mk 5 true true (fun p => p == 2 || p == 4) (fun p => p == 2)
          (fun _ => false)) false (NCState.mk 6 [] [])).2.first_conflicting_page =
        chained ++ (NCState.mk 6 [] [] : NCState).first_conflicting_page ∧
      ∀ q ∈ chained,
        (NCWorld.mk 5 true true (fun p => p == 2 || p == 4) (fun p => p == 2)
          (fun _ => false)).pageset1 q = true) ∧
    (free_conflicting_pages
      (___suspend_get_nonconflicting_page
        (NCWorld.mk 5 true true (fun p => p == 2 || p == 4) (fun p => p == 2)
          (fun _ => false)) false (NCState.mk 6 [] [])).2).2 =
      (___suspend_get_nonconflicting_page
        (NCWorld.mk 5 true true (fun p => p == 2 || p == 4) (fun p => p == 2)
          (fun _ => false)) false (NCState.mk 6 [] [])).2.first_conflicting_page ∧
    (free_conflicting_pages
      (___suspend_get_nonconflicting_page
        (NCWorld.mk 5 true true (fun p => p == 2 || p == 4) (fun p => p == 2)
          (fun _ => false)) false (NCState.mk 6 [] [])).2).1.first_conflicting_page = []) :=
  ⟨by simp, nonconflicting_page_postcondition
    (NCWorld.mk 5 true true (fun p => p == 2 || p == 4) (fun p => p == 2) (fun _ => false))
    false (NCState.mk 6 [] []) (by simp)⟩

theorem readLE_succ (buf : Nat → Nat) (off m : Nat) :
    readLE buf off (m + 1) = readLE buf off m + buf (off + m) * 256 ^ m := by
  simp [readLE, List.range_succ]

theorem readLE_write (buf : Nat → Nat) (off n v : Nat) :
    ∀ m, m ≤ n → readLE (writeLE buf off n v) off m = v % 256 ^ m := by
  intro m
  induction m with
  | zero => intro _; simp [readLE, Nat.mod_one]
  | succ m ih =>
    intro hm
    rw [readLE_succ, ih (by omega)]
    have hw : writeLE buf off n v (off + m) = v / 256 ^ m % 256 := by
      unfold writeLE
      rw [if_pos (by omega), Nat.add_sub_cancel_left]
    rw [hw]
    have : (256 : Nat) ^ (m + 1) = 256 ^ m * 256 := by ring
    rw [this, Nat.mod_mul]
    ring

theorem readLE_congr (bufA bufB : Nat → Nat) (off : Nat) :
    ∀ n, (∀ i, i < n → bufA (off + i) = bufB (off + i)) →
      readLE bufA off n = readLE bufB off n := by
  intro n
  induction n with
  | zero => intro _; rfl
  | succ n ih =>
    intro h
    rw [readLE_succ, readLE_succ, ih (fun i hi => h i (by omega)), h n (by omega)]

theorem test_flag_clear (bit : Nat) (w : FlagWord) :
    test_flag bit (clear_flag bit w) = false := by
  simp only [test_flag, clear_flag]
  rw [Bool.eq_false_iff]
  intro hc
  rw [List.contains_iff_exists_mem_beq] at hc
  obtain ⟨a, ha, hbeq⟩ := hc
  have hab : bit = a := by simpa using hbeq
  subst hab
  simp [List.mem_filter] at ha

theorem ffs_le31 (block : Nat) (h : block < 2 ^ 31) : ffs block ≤ 31 := by
  unfold ffs
  cases hf : (List.range BITS_PER_LONG).find? (fun i => block.testBit i) with
  | none => simp
  | some i =>
    have hp := List.find?_some hf
    have hbit : block.testBit i = true := by simpa using hp
    have hge : 2 ^ i ≤ block := by
      by_contra hlt
      push_neg at hlt
      rw [Nat.testBit_lt_two_pow hlt] at hbit
      exact absurd hbit (by simp)
    have hi31 : i < 31 := by
      by_contra hc
      push_neg at hc
      have h31 : (2 : Nat) ^ 31 ≤ 2 ^ i := Nat.pow_le_pow_right (by norm_num) hc
      omega
    simp only []
    omega

/-- C10: swap-signature round trip.  For a buffer holding an ordinary swap
signature ("SWAP-SPACE" or "SWAPSPACE2"), any 32-bit device id and any block
below 2^31, prepare_signature succeeds (returns 0), a subsequent
parse_signature with restore = 0 returns type 12 (from "SWAP-SPACE") or 13
(from "SWAPSPACE2"), stores the device id in header_dev_t and the block in
headerblock, and leaves the resumed-before state cleared; parsing with
restore = 1 instead restores the original 10 signature bytes according to
the type's low bit. -/
theorem signature_round_trip (buf : Nat → Nat) (st st2 st3 : SigState) (bdev block : Nat)
    (hdev : bdev < 2 ^ 32) (hblk : block < 2 ^ 31)
    (hsig : memcmp_eq sig_SWAP_SPACE buf = true ∨ memcmp_eq sig_SWAPSPACE2 buf = true) :
    (prepare_signature bdev block buf st).1 = 0 ∧
    (parse_signature (prepare_signature bdev block buf st).2.1 false st2).1 =
      (if memcmp_eq sig_SWAP_SPACE buf = true then 12 else 13) ∧
    (parse_signature (prepare_signature bdev block buf st).2.1 false st2).2.2.header_dev_t
      = bdev ∧
    (parse_signature (prepare_signature bdev block buf st).2.1 false st2).2.2.headerblock
      = block ∧
    test_flag SUSPEND_RESUMED_BEFORE
      (parse_signature (prepare_signature bdev block buf st).2.1 false st2).2.2.toi_state
      = false ∧
    ∀ i, i < 10 →
      (parse_signature (prepare_signature bdev block buf st).2.1 true st3).2.1 i = buf i := by
  have hffs : ¬ (BITS_PER_LONG = 64 ∧ ffs block > 31) := by
    intro hc
    have := ffs_le31 block hblk
    omega
  have hblk4 : block < 256 ^ 4 := lt_of_lt_of_le hblk (by norm_num)
  have hdev4 : bdev < 256 ^ 4 := lt_of_lt_of_le hdev (by norm_num)
  rcases hsig with hs | hs
  · -- "SWAP-SPACE" case
    have hsP := of_decide_eq_true hs
    have hparse0 : parse_signature buf false st = (0, buf, st) := by
      unfold parse_signature
      rw [if_pos hs]
    have hprep : prepare_signature bdev block buf st =
        (0, writeLE (writeLE (writeByte buf 0 122) 1 4 bdev) 6 SIZEOF_UNSIGNED_LONG block,
          st) := by
      unfold prepare_signature
      rw [hparse0]
      simp [hffs, (by decide : ¬ Int.emod 0 2 = 1)]
    have hb0 : (prepare_signature bdev block buf st).2.1 0 = 122 := by
      rw [hprep]
      simp [writeLE, writeByte, SIZEOF_UNSIGNED_LONG]
    have h5 : buf 5 = 83 := by
      have h5' := hsP 5 (by simp [sig_SWAP_SPACE])
      simpa [sig_SWAP_SPACE] using h5'
    have hb5 : (prepare_signature bdev block buf st).2.1 5 = 83 := by
      rw [hprep]
      simp [writeLE, writeByte, SIZEOF_UNSIGNED_LONG, h5]
    have hm1 : memcmp_eq sig_SWAP_SPACE ((prepare_signature bdev block buf st).2.1) = false := by
      apply decide_eq_false
      intro hall
      have h0 := hall 0 (by simp [sig_SWAP_SPACE])
      rw [hb0] at h0
      exact absurd h0 (by decide)
    have hm2 : memcmp_eq sig_SWAPSPACE2 ((prepare_signature bdev block buf st).2.1) = false := by
      apply decide_eq_false
      intro hall
      have h0 := hall 0 (by simp [sig_SWAPSPACE2])
      rw [hb0] at h0
      exact absurd h0 (by decide)
    have hm3 : memcmp_eq sig_S1SUSP ((prepare_signature bdev block buf st).2.1) = false := by
      apply decide_eq_false
      intro hall
      have h0 := hall 0 (by simp [sig_S1SUSP])
      rw [hb0] at h0
      exact absurd h0 (by decide)
    have hm4 : memcmp_eq sig_S2SUSP ((prepare_signature bdev block buf st).2.1) = false := by
      apply decide_eq_false
      intro hall
      have h0 := hall 0 (by simp [sig_S2SUSP])
      rw [hb0] at h0
      exact absurd h0 (by decide)
    have hm5 : memcmp_eq sig_S1SUSPEND ((prepare_signature bdev block buf st).2.1) = false := by
      apply decide_eq_false
      intro hall
      have h0 := hall 0 (by simp [sig_S1SUSPEND])
      rw [hb0] at h0
      exact absurd h0 (by decide)
    have hm6 : memcmp_eq [122] ((prepare_signature bdev block buf st).2.1) = true := by
      apply decide_eq_true
      intro i hi
      have hi0 : i = 0 := by simp at hi; omega
      subst hi0
      simpa using hb0
    have hdevread : readLE ((prepare_signature bdev block buf st).2.1) 1 4 = bdev := by
      rw [hprep]
      have hcongr : readLE
          (writeLE (writeLE (writeByte buf 0 122) 1 4 bdev) 6 SIZEOF_UNSIGNED_LONG block) 1 4 =
          readLE (writeLE (writeByte buf 0 122) 1 4 bdev) 1 4 := by
        apply readLE_congr
        intro i hi
        unfold writeLE
        rw [if_neg (fun hc => absurd hc.1 (by omega))]
      simp only []
      rw [hcongr, readLE_write _ _ _ _ 4 le_rfl, Nat.mod_eq_of_lt hdev4]
    have hblkread : readLE ((prepare_signature bdev block buf st).2.1) 6 4 = block := by
      rw [hprep]
      simp only []
      rw [readLE_write _ _ _ _ 4 (by simp [SIZEOF_UNSIGNED_LONG]), Nat.mod_eq_of_lt hblk4]
    have htb : ((83 : Nat).testBit 7) = false := by decide
    have hparse2 : parse_signature ((prepare_signature bdev block buf st).2.1) false st2 =
        (12, (prepare_signature bdev block buf st).2.1,
          { header_dev_t := bdev, headerblock := block,
            toi_state := clear_flag SUSPEND_RESUMED_BEFORE st2.toi_state }) := by
      unfold parse_signature
      simp [hm1, hm2, hm3, hm4, hm5, hm6, hb5, htb, hdevread, hblkread]
    have hparse3 : ∀ i, i < 10 →
        (parse_signature ((prepare_signature bdev block buf st).2.1) true st3).2.1 i
          = buf i := by
      intro i hi
      have hred : (parse_signature ((prepare_signature bdev block buf st).2.1) true st3).2.1 =
          fun j => if j < 10 then sig_SWAP_SPACE.getD j 0
            else (prepare_signature bdev block buf st).2.1 j := by
        unfold parse_signature
        simp [hm1, hm2, hm3, hm4, hm5, hm6, hb5, htb, (by decide : ¬ Int.emod 12 2 = 1)]
      rw [hred]
      simp only [hi, if_true]
      exact (hsP i (by simpa [sig_SWAP_SPACE] using hi)).symm
    refine ⟨by rw [hprep], ?_, ?_, ?_, ?_, hparse3⟩
    · rw [hparse2, if_pos hs]
    · rw [hparse2]
    · rw [hparse2]
    · rw [hparse2]
      exact test_flag_clear _ _
  · -- "SWAPSPACE2" case
    have hsP := of_decide_eq_true hs
    have hm0 : memcmp_eq sig_SWAP_SPACE buf = false := by
      apply decide_eq_false
      intro hall
      have h4 := hall 4 (by simp [sig_SWAP_SPACE])
      have h4' := hsP 4 (by simp [sig_SWAPSPACE2])
      rw [h4] at h4'
      exact absurd h4' (by decide)
    have hparse0 : parse_signature buf false st = (1, buf, st) := by
      unfold parse_signature
      rw [if_neg (by simp [hm0]), if_pos hs]
    have hprep : prepare_signature bdev block buf st =
        (0, writeLE (writeLE (writeByte buf 0 90) 1 4 bdev) 6 SIZEOF_UNSIGNED_LONG block,
          st) := by
      unfold prepare_signature
      rw [hparse0]
      simp [hffs, (by decide : Int.emod 1 2 = 1)]
    have hb0 : (prepare_signature bdev block buf st).2.1 0 = 90 := by
      rw [hprep]
      simp [writeLE, writeByte, SIZEOF_UNSIGNED_LONG]
    have h5 : buf 5 = 80 := by
      have h5' := hsP 5 (by simp [sig_SWAPSPACE2])
      simpa [sig_SWAPSPACE2] using h5'
    have hb5 : (prepare_signature bdev block buf st).2.1 5 = 80 := by
      rw [hprep]
      simp [writeLE, writeByte, SIZEOF_UNSIGNED_LONG, h5]
    have hm1 : memcmp_eq sig_SWAP_SPACE ((prepare_signature bdev block buf st).2.1) = false := by
      apply decide_eq_false
      intro hall
      have h0 := hall 0 (by simp [sig_SWAP_SPACE])
      rw [hb0] at h0
      exact absurd h0 (by decide)
    have hm2 : memcmp_eq sig_SWAPSPACE2 ((prepare_signature bdev block buf st).2.1) = false := by
      apply decide_eq_false
      intro hall
      have h0 := hall 0 (by simp [sig_SWAPSPACE2])
      rw [hb0] at h0
      exact absurd h0 (by decide)
    have hm3 : memcmp_eq sig_S1SUSP ((prepare_signature bdev block buf st).2.1) = false := by
      apply decide_eq_false
      intro hall
      have h0 := hall 0 (by simp [sig_S1SUSP])
      rw [hb0] at h0
      exact absurd h0 (by decide)
    have hm4 : memcmp_eq sig_S2SUSP ((prepare_signature bdev block buf st).2.1) = false := by
      apply decide_eq_false
      intro hall
      have h0 := hall 0 (by simp [sig_S2SUSP])
      rw [hb0] at h0
      exact absurd h0 (by decide)
    have hm5 : memcmp_eq sig_S1SUSPEND ((prepare_signature bdev block buf st).2.1) = false := by
      apply decide_eq_false
      intro hall
      have h0 := hall 0 (by simp [sig_S1SUSPEND])
      rw [hb0] at h0
      exact absurd h0 (by decide)
    have hm6 : memcmp_eq [122] ((prepare_signature bdev block buf st).2.1) = false := by
      apply decide_eq_false
      intro hall
      have h0 := hall 0 (by simp)
      rw [hb0] at h0
      exact absurd h0 (by decide)
    have hm7 : memcmp_eq [90] ((prepare_signature bdev block buf st).2.1) = true := by
      apply decide_eq_true
      intro i hi
      have hi0 : i = 0 := by simp at hi; omega
      subst hi0
      simpa using hb0
    have hdevread : readLE ((prepare_signature bdev block buf st).2.1) 1 4 = bdev := by
      rw [hprep]
      have hcongr : readLE
          (writeLE (writeLE (writeByte buf 0 90) 1 4 bdev) 6 SIZEOF_UNSIGNED_LONG block) 1 4 =
          readLE (writeLE (writeByte buf 0 90) 1 4 bdev) 1 4 := by
        apply readLE_congr
        intro i hi
        unfold writeLE
        rw [if_neg (fun hc => absurd hc.1 (by omega))]
      simp only []
      rw [hcongr, readLE_write _ _ _ _ 4 le_rfl, Nat.mod_eq_of_lt hdev4]
    have hblkread : readLE ((prepare_signature bdev block buf st).2.1) 6 4 = block := by
      rw [hprep]
      simp only []
      rw [readLE_write _ _ _ _ 4 (by simp [SIZEOF_UNSIGNED_LONG]), Nat.mod_eq_of_lt hblk4]
    have htb : ((80 : Nat).testBit 7) = false := by decide
    have hparse2 : parse_signature ((prepare_signature bdev block buf st).2.1) false st2 =
        (13, (prepare_signature bdev block buf st).2.1,
          { header_dev_t := bdev, headerblock := block,
            toi_state := clear_flag SUSPEND_RESUMED_BEFORE st2.toi_state }) := by
      unfold parse_signature
      simp [hm1, hm2, hm3, hm4, hm5, hm6, hm7, hb5, htb, hdevread, hblkread]
    have hparse3 : ∀ i, i < 10 →
        (parse_signature ((prepare_signature bdev block buf st).2.1) true st3).2.1 i
          = buf i := by
      intro i hi
      have hred : (parse_signature ((prepare_signature bdev block buf st).2.1) true st3).2.1 =
          fun j => if j < 10 then sig_SWAPSPACE2.getD j 0
            else (prepare_signature bdev block buf st).2.1 j := by
        unfold parse_signature
        simp [hm1, hm2, hm3, hm4, hm5, hm6, hm7, hb5, htb, (by decide : Int.emod 13 2 = 1)]
      rw [hred]
      simp only [hi, if_true]
      exact (hsP i (by simpa [sig_SWAPSPACE2] using hi)).symm
    refine ⟨by rw [hprep], ?_, ?_, ?_, ?_, hparse3⟩
    · rw [hparse2, if_neg (by simp [hm0])]
    · rw [hparse2]
    · rw [hparse2]
    · rw [hparse2]
      exact test_flag_clear _ _

/-- Witness for C10: a "SWAP-SPACE" buffer, device id 305419896 and header
block 42. -/
theorem signature_round_trip_witness :
    ((305419896 : Nat) < 2 ^ 32 ∧ (42 : Nat) < 2 ^ 31 ∧
      (memcmp_eq sig_SWAP_SPACE (fun i => sig_SWAP_SPACE.getD i 0) = true ∨
       memcmp_eq sig_SWAPSPACE2 (fun i => sig_SWAP_SPACE.getD i 0) = true)) ∧
    ((prepare_signature 305419896 42 (fun i => sig_SWAP_SPACE.getD i 0)
        (SigState.mk 0 0 [])).1 = 0 ∧
     (parse_signature (prepare_signature 305419896 42 (fun i => sig_SWAP_SPACE.getD i 0)
        (SigState.mk 0 0 [])).2.1 false (SigState.mk 0 0 [])).1 =
       (if memcmp_eq sig_SWAP_SPACE (fun i => sig_SWAP_SPACE.getD i 0) = true then 12
        else 13) ∧
     (parse_signature (prepare_signature 305419896 42 (fun i => sig_SWAP_SPACE.getD i 0)
        (SigState.mk 0 0 [])).2.1 false (SigState.mk 0 0 [])).2.2.header_dev_t = 305419896 ∧
     (parse_signature (prepare_signature 305419896 42 (fun i => sig_SWAP_SPACE.getD i 0)
        (SigState.mk 0 0 [])).2.1 false (SigState.mk 0 0 [])).2.2.headerblock = 42 ∧
     test_flag SUSPEND_RESUMED_BEFORE
       (parse_signature (prepare_signature 305419896 42 (fun i => sig_SWAP_SPACE.getD i 0)
          (SigState.mk 0 0 [])).2.1 false (SigState.mk 0 0 [])).2.2.toi_state = false ∧
     ∀ i, i < 10 →
       (parse_signature (prepare_signature 305419896 42 (fun i => sig_SWAP_SPACE.getD i 0)
          (SigState.mk 0 0 [])).2.1 true (SigState.mk 0 0 [])).2.1 i =
         (fun i => sig_SWAP_SPACE.getD i 0) i) :=
  ⟨⟨by decide, by decide, Or.inl (by decide)⟩,
   signature_round_trip (fun i => sig_SWAP_SPACE.getD i 0) (SigState.mk 0 0 [])
     (SigState.mk 0 0 []) (SigState.mk 0 0 []) 305419896 42 (by decide) (by decide)
     (Or.inl (by decide))⟩
